import Mathlib

/-!
Verification development for the coder-openapi inference server.

This file shallowly embeds the model-execution core of the repository
(model manager, asset downloader, yi-coder transformer forward pass,
sampling, generation loop, streaming channel) and settles the frozen
claims C1..C10 against the embedded code.

Modelling conventions, stated once here:
* Machine floats (f32/f64) are modelled by the type `FP`: exact rationals
  plus NaN and signed infinities.  Rounding and overflow-to-infinity of
  finite arithmetic are not modelled; NaN/infinity propagation,
  IEEE comparison semantics (NaN compares false), the Rust `max`/`min`
  NaN-ignoring behaviour, and the saturating `as`-casts are.
* The transcendental functions exp/sqrt/gelu of the tensor backend are
  not rational; they are passed explicitly as a `RealOps` bundle of
  functions on the rational core, with the IEEE special cases fixed.
* candle tensors are `Tensor`: a shape plus row-major data.  Dtypes are
  not tracked separately: U32/I64 conversions are value maps (the code
  paths under study never fail on a dtype check alone, only on ranks
  and shapes, which are modelled exactly).
* External collaborators are explicit parameters: the tokenizer is a
  pair of total functions, the filesystem a `String → Bool` presence
  predicate, the random generator an explicit stream of rational draws
  (the uniform draw used by a weighted sample), the streaming consumer a
  bounded channel value.
* `log::debug!`/`log::warn!` calls are no-ops (logging disabled), so the
  fallible expressions inside log macro arguments are not evaluated.
* Rust string formatting of floats is abstracted by `FP.render`.
-/

set_option maxRecDepth 100000
set_option maxHeartbeats 1600000

namespace Coder

/-- IEEE-style scalar: NaN, signed infinity, or an exact finite value. -/
inductive FP where
  | nan : FP
  | inf : Bool → FP
  | num : ℚ → FP
deriving DecidableEq, Repr

namespace FP

/-- Kernel-reducible rational primitives: the core `Rat.add`, `Rat.mul`,
`Rat.div`, `Rat.neg` are `@[irreducible]`, so the embedding computes with
the textbook fraction formulas over `Rat.divInt`/`mkRat`, which the
kernel does evaluate; these agree with rational addition and so on. -/
def qofInt (n : Int) : ℚ := Rat.divInt n 1

def qofNat (n : Nat) : ℚ := Rat.divInt n 1

def qadd (a b : ℚ) : ℚ := Rat.divInt (a.num * b.den + b.num * a.den) ((a.den * b.den : Nat))

def qneg (a : ℚ) : ℚ := Rat.divInt (-a.num) a.den

def qsub (a b : ℚ) : ℚ := qadd a (qneg b)

def qmul (a b : ℚ) : ℚ := Rat.divInt (a.num * b.num) ((a.den * b.den : Nat))

def qdiv (a b : ℚ) : ℚ := Rat.divInt (a.num * (b.den : Int)) ((a.den : Int) * b.num)

/-- Floor of a nonnegative rational (the only use site). -/
def qfloor (a : ℚ) : Int := a.num / (a.den : Int)

/-- Positive infinity. -/
def pinf : FP := .inf false

/-- Negative infinity. -/
def ninf : FP := .inf true

def isNaN : FP → Bool
  | .nan => true
  | _ => false

def isInfinite : FP → Bool
  | .inf _ => true
  | _ => false

/-- `x.is_nan() || x.is_infinite()` — the non-finite test used by the code. -/
def nonFinite (x : FP) : Bool := x.isNaN || x.isInfinite

def neg : FP → FP
  | .nan => .nan
  | .inf s => .inf (!s)
  | .num q => .num (qneg q)

def add : FP → FP → FP
  | .nan, _ => .nan
  | _, .nan => .nan
  | .inf s, .inf t => if s = t then .inf s else .nan
  | .inf s, .num _ => .inf s
  | .num _, .inf t => .inf t
  | .num a, .num b => .num (qadd a b)

def sub (x y : FP) : FP := add x (neg y)

def mul : FP → FP → FP
  | .nan, _ => .nan
  | _, .nan => .nan
  | .inf s, .inf t => .inf (xor s t)
  | .inf s, .num q => if q = 0 then .nan else .inf (xor s (decide (q < 0)))
  | .num q, .inf t => if q = 0 then .nan else .inf (xor t (decide (q < 0)))
  | .num a, .num b => .num (qmul a b)

def div : FP → FP → FP
  | .nan, _ => .nan
  | _, .nan => .nan
  | .inf _, .inf _ => .nan
  | .inf s, .num q => .inf (xor s (decide (q < 0)))
  | .num _, .inf _ => .num 0
  | .num a, .num b =>
      if b = 0 then (if a = 0 then .nan else .inf (decide (a < 0))) else .num (qdiv a b)

/-- IEEE strict less-than: any comparison with NaN is false. -/
def lt : FP → FP → Bool
  | .nan, _ => false
  | _, .nan => false
  | .inf s, .inf t => s && !t
  | .inf s, .num _ => s
  | .num _, .inf t => !t
  | .num a, .num b => decide (a < b)

/-- IEEE less-or-equal: any comparison with NaN is false. -/
def le : FP → FP → Bool
  | .nan, _ => false
  | _, .nan => false
  | .inf s, .inf t => s || !t
  | .inf s, .num _ => s
  | .num _, .inf t => !t
  | .num a, .num b => decide (a ≤ b)

/-- Rust `f32::max`: NaN operands are ignored in favour of the other one. -/
def maxR (x y : FP) : FP :=
  if x.isNaN then y else if y.isNaN then x else if lt x y then y else x

/-- Rust `f32::min`: NaN operands are ignored in favour of the other one. -/
def minR (x y : FP) : FP :=
  if x.isNaN then y else if y.isNaN then x else if lt y x then y else x

/-- candle `clamp(lo, hi)` = `maximum(lo)` then `minimum(hi)` with the Rust
NaN-ignoring max/min; in particular a NaN input comes out as `lo`. -/
def clampR (lo hi x : FP) : FP := minR (maxR x lo) hi

/-- Rust saturating cast `as u32`, re-injected as a float value: NaN and
negatives map to 0, values past `u32::MAX` saturate, the fractional part
is truncated. -/
def toU32 : FP → FP
  | .nan => .num 0
  | .inf s => if s then .num 0 else .num 4294967295
  | .num q =>
      if q ≤ 0 then .num 0
      else if (4294967295 : ℚ) ≤ q then .num 4294967295
      else .num (qofInt (qfloor q))

/-- Rust saturating cast `as i64`, re-injected as a float value. -/
def toI64 : FP → FP
  | .nan => .num 0
  | .inf s => if s then .num (qofInt (-9223372036854775808)) else .num 9223372036854775807
  | .num q =>
      if q ≤ qofInt (-9223372036854775808) then .num (qofInt (-9223372036854775808))
      else if (9223372036854775807 : ℚ) ≤ q then .num 9223372036854775807
      else .num (qofInt (qfloor q))

def sqr (x : FP) : FP := mul x x

/-- Abstract rendering of a float for Rust format strings (`{}` / `{:.2}`);
the exact decimal text is irrelevant to every claim. -/
def render : FP → String
  | .nan => "NaN"
  | .inf s => if s then "-inf" else "inf"
  | .num q => toString q

end FP

/-- The transcendental kernels of the tensor backend, abstracted over the
rational core.  The IEEE special cases are fixed in `FP.expF` etc. -/
structure RealOps where
  exp : ℚ → ℚ
  sqrt : ℚ → ℚ
  gelu : ℚ → ℚ

namespace FP

def expF (ops : RealOps) : FP → FP
  | .nan => .nan
  | .inf s => if s then .num 0 else .inf false
  | .num q => .num (ops.exp q)

def sqrtF (ops : RealOps) : FP → FP
  | .nan => .nan
  | .inf s => if s then .nan else .inf false
  | .num q => if q < 0 then .nan else .num (ops.sqrt q)

def geluF (ops : RealOps) : FP → FP
  | .nan => .nan
  | .inf s => if s then .num 0 else .inf false
  | .num q => .num (ops.gelu q)

end FP

/-- Errors of the tensor backend (candle_core::Error), restricted to the
constructors the embedded code paths can produce. -/
inductive CandleError where
  | msg : String → CandleError
  | unexpectedRank : Nat → Nat → String → CandleError
  | shapeMismatch : String → CandleError
  | outOfBounds : String → CandleError
  | emptyReduce : String → CandleError
deriving DecidableEq, Repr

/-- A candle tensor: a shape and row-major data.  Well-formed tensors have
`data.length = shape.prod`; every constructor below maintains this. -/
structure Tensor where
  shape : List Nat
  data : List FP
deriving DecidableEq, Repr

namespace Tensor

def rank (t : Tensor) : Nat := t.shape.length

def numel (sh : List Nat) : Nat := sh.prod

/-- `Tensor::new` of a scalar value (rank 0). -/
def scalar (x : FP) : Tensor := ⟨[], [x]⟩

/-- `Tensor::new(&[..])` / `from_slice` of a vector. -/
def ofVec (xs : List FP) : Tensor := ⟨[xs.length], xs⟩

/-- `Tensor::zeros(shape)`. -/
def zeros (sh : List Nat) : Tensor := ⟨sh, List.replicate (numel sh) (.num 0)⟩

def get (t : Tensor) (i : Nat) : FP := t.data.getD i .nan

/-- `dim(i)` with candle's bound check. -/
def dim (t : Tensor) (i : Nat) : Except CandleError Nat :=
  match t.shape.get? i with
  | some d => .ok d
  | none => .error (.unexpectedRank (i + 1) t.rank "dim")

/-- `Tensor::from_slice(data, shape)`: the element count must match. -/
def fromSlice (xs : List FP) (sh : List Nat) : Except CandleError Tensor :=
  if xs.length = numel sh then .ok ⟨sh, xs⟩ else .error (.shapeMismatch "from_slice")

/-- Elementwise map (dtype casts, clamp, exp, sqr, ...). -/
def emap (f : FP → FP) (t : Tensor) : Tensor := ⟨t.shape, t.data.map f⟩

/-- `clamp(lo, hi)`. -/
def clamp (t : Tensor) (lo hi : ℚ) : Tensor := t.emap (FP.clampR (.num lo) (.num hi))

/-- `to_scalar`: candle requires rank 0. -/
def toScalar (t : Tensor) : Except CandleError FP :=
  if t.rank = 0 then .ok (t.get 0) else .error (.unexpectedRank 0 t.rank "to_scalar")

/-- `to_vec1`: candle requires rank 1. -/
def toVec1 (t : Tensor) : Except CandleError (List FP) :=
  if t.rank = 1 then .ok t.data else .error (.unexpectedRank 1 t.rank "to_vec1")

/-- `flatten_all`. -/
def flattenAll (t : Tensor) : Tensor := ⟨[t.data.length], t.data⟩

/-- `reshape`: element counts must agree. -/
def reshape (t : Tensor) (sh : List Nat) : Except CandleError Tensor :=
  if t.data.length = numel sh then .ok ⟨sh, t.data⟩ else .error (.shapeMismatch "reshape")

/-- `unsqueeze(dim)`. -/
def unsqueeze (t : Tensor) (d : Nat) : Except CandleError Tensor :=
  if d ≤ t.rank then .ok ⟨t.shape.take d ++ 1 :: t.shape.drop d, t.data⟩
  else .error (.unexpectedRank d t.rank "unsqueeze")

/-- `squeeze(dim)`: removes the dimension when it has extent 1, otherwise a
no-op (candle/PyTorch semantics). -/
def squeeze (t : Tensor) (d : Nat) : Except CandleError Tensor :=
  match t.shape.get? d with
  | none => .error (.unexpectedRank (d + 1) t.rank "squeeze")
  | some 1 => .ok ⟨t.shape.take d ++ t.shape.drop (d + 1), t.data⟩
  | some _ => .ok t

/-- Row-major strides of a shape. -/
def strides : List Nat → List Nat
  | [] => []
  | _ :: ds => numel ds :: strides ds

/-- Flat index from a multi-index. -/
def flatIndex (sh idx : List Nat) : Nat :=
  ((strides sh).zip idx).foldl (fun a p => a + p.1 * p.2) 0

/-- Multi-index of a flat index. -/
def multiIndex (sh : List Nat) (i : Nat) : List Nat :=
  (sh.zip (strides sh)).map (fun p => i / p.2 % p.1)

/-- Largest element, Rust `max`-fold semantics (empty slices never occur on
the embedded paths; `nan` is returned for them). -/
def listMaxR : List FP → FP
  | [] => .nan
  | h :: tl => tl.foldl FP.maxR h

def listMinR : List FP → FP
  | [] => .nan
  | h :: tl => tl.foldl FP.minR h

def listSum (l : List FP) : FP := l.foldl FP.add (.num 0)

/-- Index of the first strictly-largest element (candle arg-reduce keeps the
earlier index on ties, advances only on a strictly greater value). -/
def listArgmax (l : List FP) : Nat :=
  match l with
  | [] => 0
  | h :: tl =>
      (tl.foldl (fun (acc : Nat × FP × Nat) v =>
        let best := acc.1
        let bestVal := acc.2.1
        let i := acc.2.2
        if FP.lt bestVal v then (i + 1, v, i + 1) else (best, bestVal, i + 1))
        (0, h, 0)).1

/-- The slices of `t` along dimension `d`, each reduced by `f`. -/
def reduceSlices (t : Tensor) (d : Nat) (f : List FP → FP) : List FP :=
  let dd := t.shape.getD d 0
  let inner := numel (t.shape.drop (d + 1))
  let outer := numel (t.shape.take d)
  (List.range outer).flatMap fun o =>
    (List.range inner).map fun i =>
      f ((List.range dd).map fun k => t.get ((o * dd + k) * inner + i))

/-- Reduction along `d` keeping the dimension (extent 1). -/
def reduceKeep (t : Tensor) (d : Nat) (f : List FP → FP) (name : String) :
    Except CandleError Tensor :=
  if d < t.rank then
    if t.shape.getD d 0 = 0 then .error (.emptyReduce name)
    else .ok ⟨t.shape.take d ++ 1 :: t.shape.drop (d + 1), reduceSlices t d f⟩
  else .error (.unexpectedRank (d + 1) t.rank name)

/-- Reduction along `d` removing the dimension. -/
def reduceRm (t : Tensor) (d : Nat) (f : List FP → FP) (name : String) :
    Except CandleError Tensor :=
  if d < t.rank then
    if t.shape.getD d 0 = 0 then .error (.emptyReduce name)
    else .ok ⟨t.shape.take d ++ t.shape.drop (d + 1), reduceSlices t d f⟩
  else .error (.unexpectedRank (d + 1) t.rank name)

def maxKeepdim (t : Tensor) (d : Nat) : Except CandleError Tensor :=
  reduceKeep t d listMaxR "max_keepdim"

def sumKeepdim (t : Tensor) (d : Nat) : Except CandleError Tensor :=
  reduceKeep t d listSum "sum_keepdim"

def minDim (t : Tensor) (d : Nat) : Except CandleError Tensor :=
  reduceRm t d listMinR "min"

def maxDim (t : Tensor) (d : Nat) : Except CandleError Tensor :=
  reduceRm t d listMaxR "max"

/-- `argmax(dim)`: index of the per-slice maximum, dimension removed. -/
def argmaxDim (t : Tensor) (d : Nat) : Except CandleError Tensor :=
  reduceRm t d (fun l => .num (FP.qofNat (listArgmax l))) "argmax"

/-- `mean_keepdim`: sum divided by the dimension extent. -/
def meanKeepdim (t : Tensor) (d : Nat) : Except CandleError Tensor := do
  let s ← sumKeepdim t d
  let n : ℚ := FP.qofNat (t.shape.getD d 0)
  return s.emap (fun v => FP.div v (.num n))

/-- Two-sided broadcast shape (left-pad with 1, dims must agree or be 1). -/
def broadcastShapes (a b : List Nat) : Option (List Nat) :=
  let n := max a.length b.length
  let pa := List.replicate (n - a.length) 1 ++ a
  let pb := List.replicate (n - b.length) 1 ++ b
  (pa.zip pb).mapM fun p =>
    if p.1 = p.2 then some p.1
    else if p.1 = 1 then some p.2
    else if p.2 = 1 then some p.1
    else none

/-- Data of `t` broadcast to a target shape (assumed compatible). -/
def broadcastData (srcSh : List Nat) (data : List FP) (tgtSh : List Nat) : List FP :=
  (List.range (numel tgtSh)).map fun i =>
    let m := multiIndex tgtSh i
    let mTail := m.drop (tgtSh.length - srcSh.length)
    let mSrc := (srcSh.zip mTail).map (fun p => if p.1 = 1 then 0 else p.2)
    data.getD (flatIndex srcSh mSrc) .nan

/-- `broadcast_as(target)`. -/
def broadcastAs (t : Tensor) (sh : List Nat) : Except CandleError Tensor :=
  if t.rank ≤ sh.length ∧
      ((t.shape.zip (sh.drop (sh.length - t.rank))).all fun p => p.1 = p.2 || p.1 = 1) then
    .ok ⟨sh, broadcastData t.shape t.data sh⟩
  else .error (.shapeMismatch "broadcast_as")

/-- Same-shape elementwise binary op (candle `add`/`sub`/`mul`/`div`). -/
def binOp (name : String) (f : FP → FP → FP) (a b : Tensor) : Except CandleError Tensor :=
  if a.shape = b.shape then .ok ⟨a.shape, a.data.zipWith f b.data⟩
  else .error (.shapeMismatch name)

/-- Broadcasting elementwise binary op (candle `broadcast_add` etc.). -/
def broadcastOp (name : String) (f : FP → FP → FP) (a b : Tensor) :
    Except CandleError Tensor :=
  match broadcastShapes a.shape b.shape with
  | none => .error (.shapeMismatch name)
  | some sh =>
      .ok ⟨sh, (broadcastData a.shape a.data sh).zipWith f (broadcastData b.shape b.data sh)⟩

/-- Batched `matmul`: equal ranks (≥ 2), equal batch dims, matching inner
dimension. -/
def matmul (a b : Tensor) : Except CandleError Tensor :=
  if a.rank < 2 ∨ b.rank < 2 ∨ a.rank ≠ b.rank then .error (.shapeMismatch "matmul")
  else
    let r := a.rank
    let batch := a.shape.take (r - 2)
    let m := a.shape.getD (r - 2) 0
    let k := a.shape.getD (r - 1) 0
    let k2 := b.shape.getD (r - 2) 0
    let n := b.shape.getD (r - 1) 0
    if batch = b.shape.take (r - 2) ∧ k = k2 then
      let nb := numel batch
      let data := (List.range nb).flatMap fun bi =>
        (List.range m).flatMap fun i =>
          (List.range n).map fun j =>
            listSum ((List.range k).map fun s =>
              FP.mul (a.get ((bi * m + i) * k + s)) (b.get ((bi * k + s) * n + j)))
      .ok ⟨batch ++ [m, n], data⟩
    else .error (.shapeMismatch "matmul")

/-- `t()`: transpose of the last two dimensions. -/
def tLast (t : Tensor) : Except CandleError Tensor :=
  if t.rank < 2 then .error (.unexpectedRank 2 t.rank "transpose")
  else
    let r := t.rank
    let batch := t.shape.take (r - 2)
    let m := t.shape.getD (r - 2) 0
    let n := t.shape.getD (r - 1) 0
    let nb := numel batch
    let data := (List.range nb).flatMap fun bi =>
      (List.range n).flatMap fun j =>
        (List.range m).map fun i => t.get ((bi * m + i) * n + j)
    .ok ⟨batch ++ [n, m], data⟩

/-- `narrow(dim, start, len)`. -/
def narrow (t : Tensor) (d start len : Nat) : Except CandleError Tensor :=
  if d < t.rank ∧ start + len ≤ t.shape.getD d 0 then
    let sh := t.shape.take d ++ len :: t.shape.drop (d + 1)
    let data := (List.range (numel sh)).map fun i =>
      let m := multiIndex sh i
      let mAdj := (m.zip (List.range m.length)).map fun p => if p.2 = d then p.1 + start else p.1
      t.get (flatIndex t.shape mAdj)
    .ok ⟨sh, data⟩
  else .error (.shapeMismatch "narrow")

/-- candle `chunk(chunks, dim)`: fewer elements than chunks gives one chunk
per element, otherwise near-equal split with the remainder spread first. -/
def chunk (t : Tensor) (chunks d : Nat) : Except CandleError (List Tensor) :=
  let size := t.shape.getD d 0
  if size < chunks then
    (List.range size).mapM fun i => narrow t d i 1
  else
    let cs := size / chunks
    let extra := size % chunks
    (List.range chunks).mapM fun i =>
      let len := if i < extra then cs + 1 else cs
      let start := i * cs + min i extra
      narrow t d start len

/-- `Tensor::cat(tensors, 0)`. -/
def cat0 (ts : List Tensor) : Except CandleError Tensor :=
  match ts with
  | [] => .error (.shapeMismatch "cat")
  | t0 :: _ =>
      if ts.all (fun t => t.shape.drop 1 = t0.shape.drop 1) then
        .ok ⟨(ts.foldl (fun a t => a + t.shape.getD 0 0) 0) :: t0.shape.drop 1,
             (ts.map Tensor.data).flatten⟩
      else .error (.shapeMismatch "cat")

/-- `t.i((k, ..))` on a rank-2 tensor: select row `k`. -/
def selectRow (t : Tensor) (k : Nat) : Except CandleError Tensor :=
  if t.rank ≥ 1 ∧ k < t.shape.getD 0 0 then
    let inner := numel (t.shape.drop 1)
    .ok ⟨t.shape.drop 1, (t.data.drop (k * inner)).take inner⟩
  else .error (.outOfBounds "index")

end Tensor

/-- candle_nn `softmax(xs, dim)`: max-subtraction, exp, normalize. -/
def candleSoftmax (ops : RealOps) (xs : Tensor) (d : Nat) : Except CandleError Tensor := do
  let mx ← Tensor.maxKeepdim xs d
  let diff ← Tensor.broadcastOp "broadcast_sub" FP.sub xs mx
  let nume := diff.emap (FP.expF ops)
  let den ← Tensor.sumKeepdim nume d
  Tensor.broadcastOp "broadcast_div" FP.div nume den

/-- candle_nn `Embedding`. -/
structure Embedding where
  weight : Tensor
  hidden_size : Nat
deriving DecidableEq, Repr

/-- Embedding lookup: each id selects a row of the weight; out-of-range ids
error like candle index-select. -/
def Embedding.forward (e : Embedding) (ids : Tensor) : Except CandleError Tensor := do
  let vocab := e.weight.shape.getD 0 0
  let h := e.weight.shape.getD 1 0
  let rows ← ids.data.mapM fun v =>
    match v with
    | .num q =>
        if q.den = 1 ∧ 0 ≤ q.num ∧ q.num.toNat < vocab then
          .ok ((e.weight.data.drop (q.num.toNat * h)).take h)
        else .error (CandleError.outOfBounds "index-select")
    | _ => .error (CandleError.outOfBounds "index-select")
  return ⟨ids.shape ++ [h], rows.flatten⟩

/-- candle_nn `LayerNorm` (with mean removal and bias, as built by
`LayerNorm::new`). -/
structure LayerNorm where
  weight : Tensor
  bias : Tensor
  eps : ℚ
deriving DecidableEq, Repr

/-- candle LayerNorm forward: subtract the last-dim mean, divide by
`sqrt(mean-of-squares + eps)`, then scale and shift. -/
def LayerNorm.forward (ops : RealOps) (ln : LayerNorm) (x : Tensor) :
    Except CandleError Tensor := do
  if x.rank = 0 then throw (.unexpectedRank 1 0 "layer-norm")
  let d := x.rank - 1
  let n : ℚ := FP.qofNat (x.shape.getD d 0)
  let mean ← Tensor.meanKeepdim x d
  let xc ← Tensor.broadcastOp "broadcast_sub" FP.sub x mean
  let norm ← Tensor.sumKeepdim (xc.emap FP.sqr) d
  let norm := norm.emap (fun v => FP.div v (.num n))
  let denom := (norm.emap (fun v => FP.add v (.num ln.eps))).emap (FP.sqrtF ops)
  let xn ← Tensor.broadcastOp "broadcast_div" FP.div xc denom
  let xw ← Tensor.broadcastOp "broadcast_mul" FP.mul xn ln.weight
  Tensor.broadcastOp "broadcast_add" FP.add xw ln.bias

/-- candle_nn `Linear` (weight of shape `(out, in)`, bias `(out)`). -/
structure Linear where
  weight : Tensor
  bias : Tensor
deriving DecidableEq, Repr

/-- candle Linear forward: matmul with the transposed weight (batch dims of
`x` broadcast over the weight), then bias. -/
def Linear.forward (l : Linear) (x : Tensor) : Except CandleError Tensor := do
  let wt ← Tensor.tLast l.weight
  let w ←
    if x.rank = 2 then pure wt
    else if x.rank = 3 then
      let b := x.shape.getD 0 0
      pure (⟨b :: wt.shape, (List.replicate b wt.data).flatten⟩ : Tensor)
    else if x.rank = 4 then
      let b := x.shape.getD 0 0 * x.shape.getD 1 0
      pure (⟨x.shape.take 2 ++ wt.shape, (List.replicate b wt.data).flatten⟩ : Tensor)
    else throw (CandleError.shapeMismatch "matmul")
  let y ← Tensor.matmul x w
  Tensor.broadcastOp "broadcast_add" FP.add y l.bias

/-! ## yi_coder transformer (src/service/models/yi_coder/transformer.rs) -/

/-- src/service/models/yi_coder/config.rs `ModelConfig`. -/
structure ModelConfig where
  bos_token_id : Nat
  eos_token_id : Nat
  pad_token_id : Nat
  temperature : FP
  top_p : FP
  max_tokens : Nat
  hidden_size : Nat
  num_attention_heads : Nat
  intermediate_size : Nat
  num_layers : Nat
  layer_norm_eps : ℚ
  vocab_size : Nat
deriving DecidableEq, Repr

/-- candle_nn `VarBuilder`: a name-to-tensor store plus the current path
recorded by `pp`. -/
structure VarBuilder where
  pre : String
  store : String → Option Tensor

def VarBuilder.pp (vb : VarBuilder) (s : String) : VarBuilder :=
  ⟨vb.pre ++ s ++ ".", vb.store⟩

/-- `vb.get(shape, name)`: fails when the tensor is absent or the shape
disagrees. -/
def VarBuilder.get (vb : VarBuilder) (sh : List Nat) (name : String) :
    Except CandleError Tensor :=
  match vb.store (vb.pre ++ name) with
  | none => .error (.msg ("cannot find tensor " ++ vb.pre ++ name))
  | some t => if t.shape = sh then .ok t else .error (.shapeMismatch "var-builder-get")

/-- candle_nn `linear(in_dim, out_dim, vb)`: requires weight and bias. -/
def mkLinear (inDim outDim : Nat) (vb : VarBuilder) : Except CandleError Linear := do
  let w ← vb.get [outDim, inDim] "weight"
  let b ← vb.get [outDim] "bias"
  return ⟨w, b⟩

/-- transformer.rs `validate_tensor`: count NaN/Inf entries, abort with a
stage-naming message when any is present. -/
def validate_tensor (t : Tensor) (context : String) : Except CandleError Unit :=
  let values := t.flattenAll.data
  let nanCount := values.countP (fun v => v.isNaN)
  let infCount := values.countP (fun v => v.isInfinite)
  if nanCount > 0 ∨ infCount > 0 then
    .error (.msg ("Invalid tensor values: " ++ context ++ ": Contains NaN/Inf values"))
  else .ok ()

/-- transformer.rs `validate_shape`. -/
def validate_shape (t : Tensor) (expected : List Nat) (context : String) :
    Except CandleError Unit :=
  if t.shape = expected then .ok ()
  else .error (.msg ("Shape mismatch: " ++ context))

/-- transformer.rs `MultiHeadAttention`. -/
structure MultiHeadAttention where
  query : Linear
  key : Linear
  value : Linear
  out : Linear
  num_heads : Nat
  head_dim : Nat
deriving DecidableEq, Repr

def MultiHeadAttention.new (hidden_size num_heads : Nat) (vb : VarBuilder) :
    Except CandleError MultiHeadAttention := do
  let head_dim := hidden_size / num_heads
  let query ← mkLinear hidden_size hidden_size (vb.pp "query")
  let key ← mkLinear hidden_size hidden_size (vb.pp "key")
  let value ← mkLinear hidden_size hidden_size (vb.pp "value")
  let out ← mkLinear hidden_size hidden_size (vb.pp "out")
  return ⟨query, key, value, out, num_heads, head_dim⟩

/-- `query.dims3()?`: requires rank exactly 3. -/
def Tensor.dims3 (t : Tensor) : Except CandleError (Nat × Nat × Nat) :=
  match t.shape with
  | [a, b, c] => .ok (a, b, c)
  | _ => .error (.unexpectedRank 3 t.rank "dims3")

/-- transformer.rs `MultiHeadAttention::forward`, statement by statement
(log calls are no-ops). -/
def MultiHeadAttention.forward (ops : RealOps) (self : MultiHeadAttention)
    (query key value : Tensor) (attention_mask : Option Tensor) :
    Except CandleError Tensor := do
  let (batch_size, seq_len, _) ← query.dims3
  let query ← self.query.forward query
  let key ← self.key.forward key
  let value ← self.value.forward value
  let query ← query.reshape [batch_size, seq_len, self.num_heads, self.head_dim]
  let key ← key.reshape [batch_size, seq_len, self.num_heads, self.head_dim]
  let value ← value.reshape [batch_size, seq_len, self.num_heads, self.head_dim]
  let query := query.clamp (FP.qofInt (-10000)) 10000
  let key := key.clamp (FP.qofInt (-10000)) 10000
  let keyT ← Tensor.tLast key
  let attention_scores ← Tensor.matmul query keyT
  let flattened_scores := attention_scores.flattenAll
  let scoresMinT ← Tensor.minDim flattened_scores 0
  let scores_min ← scoresMinT.toScalar
  let scoresMaxT ← Tensor.maxDim flattened_scores 0
  let scores_max ← scoresMaxT.toScalar
  if scores_min.isNaN ∨ scores_max.isNaN then
    throw (.msg "Attention scores contain NaN values")
  let scale_factor := Tensor.scalar (FP.sqrtF ops (.num (FP.qofNat self.head_dim)))
  let attention_scores ← Tensor.broadcastOp "broadcast_div" FP.div attention_scores scale_factor
  let attention_scores := attention_scores.clamp (FP.qofInt (-50)) 50
  let attention_scores ←
    match attention_mask with
    | none => pure attention_scores
    | some mask => do
        let mask ← mask.broadcastAs attention_scores.shape
        if mask.shape ≠ attention_scores.shape then
          throw (.msg "Attention mask shape mismatch")
        Tensor.broadcastOp "broadcast_add" FP.add attention_scores mask
  let dims := attention_scores.shape
  if dims.length < 2 then
    throw (.msg "Invalid attention scores rank")
  let d := dims.length - 1
  let max_values ← Tensor.maxDim attention_scores d
  let max_scalar ←
    if max_values.shape.isEmpty then max_values.toScalar
    else max_values.flattenAll.toScalar
  let max_tensor := Tensor.scalar max_scalar
  let stable_scores ← Tensor.binOp "sub" FP.sub attention_scores max_tensor
  let _ ← validate_shape stable_scores dims "Stable attention scores"
  let attention_probs ← candleSoftmax ops stable_scores d
  let flattened_probs := attention_probs.flattenAll
  let probsMinT ← Tensor.minDim flattened_probs 0
  let probs_min ← probsMinT.toScalar
  let probsMaxT ← Tensor.maxDim flattened_probs 0
  let probs_max ← probsMaxT.toScalar
  if probs_min.isNaN ∨ probs_max.isNaN then
    throw (.msg "Attention probabilities contain NaN values")
  let context ← Tensor.matmul attention_probs value
  let context ← context.reshape [batch_size, seq_len, self.num_heads * self.head_dim]
  self.out.forward context

/-- transformer.rs `PositionWiseFeedForward`. -/
structure PositionWiseFeedForward where
  fc1 : Linear
  fc2 : Linear
deriving DecidableEq, Repr

def PositionWiseFeedForward.new (hidden_size intermediate_size : Nat) (vb : VarBuilder) :
    Except CandleError PositionWiseFeedForward := do
  let fc1 ← mkLinear hidden_size intermediate_size (vb.pp "fc1")
  let fc2 ← mkLinear intermediate_size hidden_size (vb.pp "fc2")
  return ⟨fc1, fc2⟩

/-- FFN forward: fc1, GELU, fc2. -/
def PositionWiseFeedForward.forward (ops : RealOps) (self : PositionWiseFeedForward)
    (input : Tensor) : Except CandleError Tensor := do
  let hidden ← self.fc1.forward input
  let hidden := hidden.emap (FP.geluF ops)
  self.fc2.forward hidden

/-- transformer.rs `TransformerLayer`. -/
structure TransformerLayer where
  attention : MultiHeadAttention
  feed_forward : PositionWiseFeedForward
  norm1 : LayerNorm
  norm2 : LayerNorm
deriving DecidableEq, Repr

def TransformerLayer.new (hidden_size num_heads intermediate_size : Nat)
    (vb : VarBuilder) : Except CandleError TransformerLayer := do
  let attention ← MultiHeadAttention.new hidden_size num_heads (vb.pp "attention")
  let feed_forward ← PositionWiseFeedForward.new hidden_size intermediate_size (vb.pp "ffn")
  let weight1 ← vb.get [hidden_size] "input_layernorm.weight"
  let bias1 ← vb.get [hidden_size] "input_layernorm.bias"
  let norm1 : LayerNorm := ⟨weight1, bias1, mkRat 1 100000⟩
  let weight2 ← vb.get [hidden_size] "post_attention_layernorm.weight"
  let bias2 ← vb.get [hidden_size] "post_attention_layernorm.bias"
  let norm2 : LayerNorm := ⟨weight2, bias2, mkRat 1 100000⟩
  return ⟨attention, feed_forward, norm1, norm2⟩

/-- Layer forward: attention, residual + norm, FFN, residual + norm. -/
def TransformerLayer.forward (ops : RealOps) (self : TransformerLayer)
    (input : Tensor) (attention_mask : Option Tensor) : Except CandleError Tensor := do
  let attention_output ← self.attention.forward ops input input input attention_mask
  let sum1 ← Tensor.binOp "add" FP.add input attention_output
  let attention_output ← self.norm1.forward ops sum1
  let feed_forward_output ← self.feed_forward.forward ops attention_output
  let sum2 ← Tensor.binOp "add" FP.add attention_output feed_forward_output
  self.norm2.forward ops sum2

/-- transformer.rs `YiCoderTransformer`. -/
structure YiCoderTransformer where
  embeddings : Embedding
  layers : List TransformerLayer
  norm : LayerNorm
  config : ModelConfig
deriving DecidableEq, Repr

/-- `YiCoderTransformer::new`: layers built from the store (no fallback),
final-norm weight required, final-norm bias and the embedding table fall
back to zero tensors with a logged warning. -/
def YiCoderTransformer.new (config : ModelConfig) (vb : VarBuilder) :
    Except CandleError YiCoderTransformer := do
  let layers ← (List.range config.num_layers).mapM fun i =>
    match TransformerLayer.new config.hidden_size config.num_attention_heads
        config.intermediate_size (vb.pp ("layer_" ++ toString i)) with
    | .ok l => .ok l
    | .error _ => .error (CandleError.msg ("Layer error: Failed to initialize layer " ++
        toString i))
  let weight ← vb.get [config.hidden_size] "model.norm.weight"
  let bias :=
    match vb.get [config.hidden_size] "model.norm.bias" with
    | .ok b => b
    | .error _ => Tensor.zeros [config.hidden_size]
  let _ ← validate_tensor weight "Final layer norm weight"
  let _ ← validate_tensor bias "Final layer norm bias"
  let norm : LayerNorm := ⟨weight, bias, config.layer_norm_eps⟩
  let embWeight :=
    match vb.get [config.vocab_size, config.hidden_size] "model.embeddings.word_embeddings" with
    | .ok w => w
    | .error _ => Tensor.zeros [config.vocab_size, config.hidden_size]
  let embeddings : Embedding := ⟨embWeight, config.hidden_size⟩
  return ⟨embeddings, layers, norm, config⟩

/-- Per-slice sample variance with the `n - 1` divisor (candle `var(dim)`;
division by `n - 1 = 0` follows float semantics through `FP.div`). -/
def varSlice (l : List FP) : FP :=
  let n : ℚ := FP.qofNat l.length
  let mean := FP.div (Tensor.listSum l) (.num n)
  FP.div (Tensor.listSum (l.map (fun v => FP.sqr (FP.sub v mean)))) (.num (n - 1))

/-- `var(dim)`: per-slice sample variance, dimension removed. -/
def Tensor.varDim (t : Tensor) (d : Nat) : Except CandleError Tensor :=
  Tensor.reduceRm t d varSlice "var"

/-- The per-layer loop of `YiCoderTransformer::forward` with the stage-named
validation after each layer. -/
def runLayers (ops : RealOps) (ls : List TransformerLayer) (i : Nat) (h : Tensor) :
    Except CandleError Tensor :=
  match ls with
  | [] => .ok h
  | l :: rest => do
      let h ← l.forward ops h none
      let _ ← validate_tensor h ("Layer " ++ toString i ++ " output")
      runLayers ops rest (i + 1) h

/-- The chunked final layer norm of `YiCoderTransformer::forward`. -/
def normChunks (ops : RealOps) (norm : LayerNorm) (cs : List Tensor) :
    Except CandleError (List Tensor) :=
  cs.mapM fun c => do
    let c := c.clamp (FP.qofInt (-1000)) 1000
    let _ ← validate_tensor c "Layer norm input chunk"
    let normed ← norm.forward ops c
    let _ ← validate_tensor normed "Layer norm chunk output"
    return normed.clamp (FP.qofInt (-1000)) 1000

/-- `YiCoderTransformer::forward` up to (excluding) the two final
validations; statement-by-statement embedding of transformer.rs lines
229-431.  Log calls are no-ops. -/
def YiCoderTransformer.forwardCore (ops : RealOps) (self : YiCoderTransformer)
    (input : Tensor) : Except CandleError Tensor := do
  let input_i64 := input.emap FP.toI64
  let minT ← Tensor.minDim input_i64 0
  let min_value ← minT.toScalar
  if FP.lt min_value (.num 0) then
    throw (.msg "Input tensor contains negative values which are invalid for embeddings")
  let hidden0 ← self.embeddings.forward input_i64
  let hidden0 := hidden0.clamp (FP.qofInt (-10000)) 10000
  let _ ← validate_tensor hidden0 "Embeddings output"
  let hidden1 ←
    match hidden0.shape with
    | [1] => do
        let a ← hidden0.unsqueeze 0
        a.unsqueeze 0
    | [_] => hidden0.unsqueeze 0
    | [_, _] => pure hidden0
    | [1, _, _] => hidden0.squeeze 0
    | _ => throw (.msg "Unexpected tensor shape")
  let hidden2 ← runLayers ops self.layers 0 hidden1
  let _ ← validate_tensor hidden2 "Final layer norm input"
  let hidden2 := hidden2.clamp (FP.qofInt (-1000)) 1000
  let values := hidden2.flattenAll.data
  let nanCount := values.countP (fun v => v.isNaN)
  let infCount := values.countP (fun v => v.isInfinite)
  if nanCount > 0 ∨ infCount > 0 then
    throw (.msg "NaN/Inf values detected before final layer norm")
  let variance ← hidden2.varDim 1
  let minVarT ← Tensor.minDim variance 0
  let min_variance ← minVarT.toScalar
  let stability_factor : ℚ :=
    if FP.lt min_variance (.num (mkRat 1 (10 ^ 20))) then mkRat 1 (10 ^ 5)
    else if FP.lt min_variance (.num (mkRat 1 (10 ^ 8))) then mkRat 1 (10 ^ 6)
    else mkRat 1 (10 ^ 8)
  let hidden3 ← Tensor.broadcastOp "broadcast_add" FP.add hidden2
    (Tensor.scalar (.num stability_factor))
  let hidden3 := hidden3.clamp (FP.qofInt (-1000)) 1000
  let varianceAfter ← hidden3.varDim 1
  let _variance := varianceAfter.clamp (mkRat 1 (10 ^ 10)) (340282350000000000000000000000000000000)
  let chunks ← hidden3.chunk 256 0
  let output ← normChunks ops self.norm chunks
  let hidden4 ← Tensor.cat0 output
  return hidden4.clamp (FP.qofInt (-1000)) 1000

/-- `YiCoderTransformer::forward`: the core followed by the two final
stage validations (transformer.rs lines 434-445). -/
def YiCoderTransformer.forward (ops : RealOps) (self : YiCoderTransformer)
    (input : Tensor) : Except CandleError Tensor := do
  let hidden ← self.forwardCore ops input
  let _ ← validate_tensor hidden "Final layer norm output"
  let _ ← validate_tensor hidden "Final output"
  return hidden

/-! ## Application-level entities and errors -/

/-- src/entities/chat_completion_message.rs. -/
structure ChatCompletionMessage where
  role : String
  content : String
deriving DecidableEq, Repr

/-- src/service/chat/chat_completion.rs `ChatCompletionParams`. -/
structure ChatCompletionParams where
  temperature : Option FP
  top_p : Option FP
  n : Option Nat
  max_tokens : Option Nat
  stream : Option Bool
deriving DecidableEq, Repr

/-- src/error.rs `AppError` (variants used by the embedded paths). -/
inductive AppError where
  | validationError : String → AppError
  | notFound : AppError
  | io : String → AppError
  | anyhow : String → AppError
  | model : String → AppError
  | candle : CandleError → AppError
  | chat : String → AppError
  | invalidModel : String → AppError
  | configError : String → AppError
  | tokenizerError : String → AppError
  | invalidParameter : String → AppError
  | generic : String → AppError
deriving DecidableEq, Repr

/-- `AppError::new` builds the `Generic` variant. -/
def AppError.new (s : String) : AppError := .generic s

/-- The `?`-conversion from a candle error into `AppError::Candle`. -/
def liftC {α : Type} : Except CandleError α → Except AppError α
  | .ok a => .ok a
  | .error e => .error (.candle e)

/-- The external tokenizer artifact: total encode/decode functions (its own
failure modes are outside every claim). -/
structure Tokenizer where
  encode : String → List Nat
  decode : List Nat → String

/-- A bounded tokio mpsc channel as seen by the producer: capacity, queued
messages, and whether the consumer has closed it. -/
structure Channel where
  capacity : Nat
  buffer : List ChatCompletionMessage
  closed : Bool
deriving DecidableEq, Repr

inductive TrySendError where
  | full : TrySendError
  | closed : TrySendError
deriving DecidableEq, Repr

/-- tokio `Sender::try_send`: an immediate (non-blocking) accept or reject;
rejection leaves the channel unchanged. -/
def Channel.trySend (c : Channel) (m : ChatCompletionMessage) :
    Except TrySendError Channel :=
  if c.closed then .error .closed
  else if c.capacity ≤ c.buffer.length then .error .full
  else .ok { c with buffer := c.buffer ++ [m] }

/-- inference.rs `YiCoderInference::send_stream_response`: try_send with the
Full/Closed cases mapped to localized `Generic` errors (the Mutex around
the sender is uncontended here and not modelled). -/
def send_stream_response (sender : Option Channel) (message : ChatCompletionMessage) :
    Except AppError Unit × Option Channel :=
  match sender with
  | none => (.error (.generic "errors.stream.sender_not_initialized"), none)
  | some c =>
      match c.trySend message with
      | .ok c2 => (.ok (), some c2)
      | .error .full => (.error (.generic "errors.stream.buffer_full"), some c)
      | .error .closed => (.error (.generic "errors.stream.channel_closed"), some c)

/-! ## Sampling (rand WeightedIndex, made deterministic by an explicit
uniform draw) -/

/-- The weight scan of `WeightedIndex::new`: every weight must satisfy
`w >= 0` (NaN fails), accumulating the total. -/
def wiCheck : List FP → FP → Except String FP
  | [], total => .ok total
  | w :: rest, total =>
      if !(FP.le (.num 0) w) then .error "InvalidWeight"
      else wiCheck rest (FP.add total w)

/-- rand `WeightedIndex::new`: rejects an empty list, a negative/NaN weight,
and an all-zero total; returns the validated weights. -/
def weightedIndexNew (ws : List FP) : Except String (List FP) :=
  match ws with
  | [] => .error "NoItem"
  | w0 :: rest =>
      if !(FP.le (.num 0) w0) then .error "InvalidWeight"
      else
        match wiCheck rest w0 with
        | .error e => .error e
        | .ok total => if total = FP.num 0 then .error "AllWeightsZero" else .ok ws

/-- `WeightedIndex::sample` with the uniform draw `x ∈ [0, total)` explicit:
the least index whose cumulative weight exceeds `x`. -/
def wsAux : List FP → FP → ℚ → Nat → Nat
  | [], _, _, i => i - 1
  | w :: rest, acc, x, i =>
      let acc2 := FP.add acc w
      if FP.lt (.num x) acc2 then i else wsAux rest acc2 x (i + 1)

def weightedSample (ws : List FP) (x : ℚ) : Nat := wsAux ws (.num 0) x 0

/-- `WeightedIndex::new` with the error mapping of yi_coder.rs
(`AppError::new(format!("WeightedIndex error: {}", e))`). -/
def wiNewApp (ws : List FP) : Except AppError (List FP) :=
  match weightedIndexNew ws with
  | .ok d => .ok d
  | .error e => .error (.generic ("WeightedIndex error: " ++ e))

/-- Extract the index carried by an argmax output entry. -/
def fpToNat : FP → Nat
  | .num q => q.num.toNat
  | _ => 0

/-! ## yi_coder.rs: custom softmax, single-token section, streaming loop,
infer -/

/-- yi_coder.rs `softmax` (lines 12-130), statement by statement: rank-1
validation via `to_vec1`, max subtraction, clamp to ±100, exp, an added
1e-6 epsilon in the denominator, division, validation, and a second
normalization pass over dimension 0. -/
def yiSoftmax (ops : RealOps) (tensor : Tensor) (dim : Nat) :
    Except CandleError Tensor := do
  if tensor.shape.isEmpty then
    throw (.msg "Empty tensor provided to softmax")
  let values ← tensor.toVec1
  if values.any FP.nonFinite then
    throw (.msg "Input tensor contains NaN or infinite values before conversion")
  let values2 ← tensor.toVec1
  if values2.any FP.nonFinite then
    throw (.msg "Input tensor contains NaN or infinite values")
  let mx ← Tensor.maxKeepdim tensor dim
  let mx ← mx.squeeze 0
  let _max_value ← mx.toScalar
  let mx ← mx.broadcastAs tensor.shape
  let diff ← Tensor.binOp "sub" FP.sub tensor mx
  let diff := diff.clamp (FP.qofInt (-100)) 100
  let expT := diff.emap (FP.expF ops)
  let sum ← Tensor.sumKeepdim expT dim
  let epsilon ← (Tensor.scalar (.num (mkRat 1 (10 ^ 6)))).broadcastAs sum.shape
  let sum ← Tensor.binOp "add" FP.add sum epsilon
  let sum ← sum.broadcastAs expT.shape
  let probs ← Tensor.binOp "div" FP.div expT sum
  let rvals ← probs.toVec1
  if rvals.any (fun x => x.isNaN) then
    throw (.msg "NaN values detected in softmax output")
  if rvals.any (fun x => x.isInfinite) then
    throw (.msg "Infinite values detected in softmax output")
  if rvals.any (fun x => FP.lt x (.num 0)) then
    throw (.msg "Negative values detected in softmax output")
  let sum2 ← Tensor.sumKeepdim probs 0
  let sum2 ← sum2.broadcastAs probs.shape
  let normalized ← Tensor.binOp "div" FP.div probs sum2
  let nvals ← normalized.toVec1
  if nvals.any (fun x => x.isNaN || x.isInfinite || FP.lt x (.num 0)) then
    throw (.msg "Invalid values detected after normalization")
  return normalized

/-- Outcome of the single-token section of `YiCoder::infer` (lines
216-326): either the early `return Ok(..)` of the uniform fallback (which
skips the streaming block) or the normal single-message value. -/
inductive SingleTokenOutcome where
  | earlyReturn : List ChatCompletionMessage → SingleTokenOutcome
  | produced : List ChatCompletionMessage → SingleTokenOutcome
deriving DecidableEq, Repr

/-- yi_coder.rs lines 216-326: the `if let Some(temp)` single-token section.
Temperature path: squeeze the batch dimension, convert the logits to U32
and back (the saturating truncation of `to_dtype`), select the last row,
validate the temperature (only here, after the forward pass), scale,
custom softmax, weighted draw.  Greedy path: `argmax(1)` on the batched
logits followed by `to_scalar`. -/
def yiSingleToken (ops : RealOps) (tok : Tokenizer) (logits : Tensor)
    (params : ChatCompletionParams) (rng : Nat → ℚ) :
    Except AppError SingleTokenOutcome :=
  match params.temperature with
  | some temp => do
      let logits2 ← liftC (logits.squeeze 0)
      let logits_u32 := logits2.emap FP.toU32
      let d0 ← liftC (logits_u32.dim 0)
      let selected_logits ← liftC (logits_u32.selectRow (d0 - 1))
      let logits_f32 := selected_logits.emap id
      let scaled_logits := logits_f32
      if temp.isNaN || temp.isInfinite || FP.le temp (.num 0) then
        throw (AppError.new ("Invalid temperature value: " ++ temp.render ++
          " (must be positive finite number)"))
      else do
        let temp_tensor := Tensor.scalar temp
        let temp_tensor ← liftC (temp_tensor.broadcastAs scaled_logits.shape)
        let temp_tensor ← liftC (temp_tensor.reshape scaled_logits.shape)
        let scaled_logits ← liftC (Tensor.binOp "div" FP.div scaled_logits temp_tensor)
        let probs ← liftC (yiSoftmax ops scaled_logits 0)
        let probs_vec ← liftC probs.toVec1
        if probs_vec.any (fun x => x.isNaN || x.isInfinite || FP.lt x (.num 0)) then do
          let uniform_prob := FP.div (.num 1) (.num (FP.qofNat probs_vec.length))
          let probs_vec2 := List.replicate probs_vec.length uniform_prob
          let dist ← wiNewApp probs_vec2
          let next_token := weightedSample dist (rng 0)
          let output_text := tok.decode [next_token]
          return .earlyReturn [⟨"assistant", output_text⟩]
        else do
          let dist ← wiNewApp probs_vec
          let next_token := weightedSample dist (rng 0)
          let output_text := tok.decode [next_token]
          return .produced [⟨"assistant", output_text⟩]
  | none => do
      let am ← liftC (Tensor.argmaxDim logits 1)
      let sc ← liftC am.toScalar
      let next_token := fpToNat sc
      let output_text := tok.decode [next_token]
      return .produced [⟨"assistant", output_text⟩]

/-- The mutable locals of the streaming `while` loop of `YiCoder::infer`. -/
structure StreamState where
  stream_output : String
  generated_tokens : Nat
  input_ids : List Nat
  sender : Option Channel
  rngIx : Nat
deriving Repr

/-- yi_coder.rs lines 337-386: the streaming decode loop.  One recursion
step is one `while` iteration; `fuel` bounds the recursion and the guard
`generated_tokens < max_tokens` is the loop condition.  A failed
`send_stream_response` breaks out (returns the state, not an error).  The
Rust rebinding of `logits` at the end of the body is scoped to the body,
so every iteration samples from the unchanged outer `logits`; the freshly
computed forward output is still evaluated (its errors propagate) but the
recursion keeps the outer `logits`, exactly as the source does. -/
def yiStreamLoop (ops : RealOps) (tok : Tokenizer) (tr : YiCoderTransformer)
    (temperature : Option FP) (rng : Nat → ℚ) (max_tokens : Nat)
    (logits : Tensor) : Nat → StreamState → Except AppError StreamState
  | 0, st => .ok st
  | fuel + 1, st =>
      if st.generated_tokens < max_tokens then do
        let next_token ←
          match temperature with
          | some temp => do
              let logits2 ← liftC (logits.squeeze 0)
              let temp_tensor := Tensor.scalar temp
              let temp_tensor ← liftC (temp_tensor.broadcastAs logits2.shape)
              let scaled_logits ← liftC (Tensor.binOp "div" FP.div
                (logits2.emap id) temp_tensor)
              let probs ← liftC (yiSoftmax ops scaled_logits 0)
              let probs_vec ← liftC probs.toVec1
              let dist ← wiNewApp probs_vec
              pure (weightedSample dist (rng st.rngIx))
          | none => do
              let am ← liftC (Tensor.argmaxDim logits 1)
              let sc ← liftC am.toScalar
              pure (fpToNat sc)
        let token_text := tok.decode [next_token]
        let st1 := { st with
          stream_output := st.stream_output ++ token_text,
          generated_tokens := st.generated_tokens + 1,
          rngIx := st.rngIx + 1 }
        let message : ChatCompletionMessage := ⟨"assistant", token_text⟩
        match send_stream_response st1.sender message with
        | (.error _, sender2) => .ok { st1 with sender := sender2 }
        | (.ok _, sender2) => do
            let st2 := { st1 with sender := sender2,
                                  input_ids := st1.input_ids ++ [next_token] }
            let input_tensor ← liftC (Tensor.fromSlice
              (st2.input_ids.map (fun n => FP.num n)) [st2.input_ids.length])
            let logitsNew ← liftC (tr.forward ops input_tensor)
            let _ ← liftC (logitsNew.unsqueeze 0)
            yiStreamLoop ops tok tr temperature rng max_tokens logits fuel st2
      else .ok st

/-- The yi-coder model as assembled by `YiCoder::new`: generation config,
tokenizer, transformer, and the streaming sender of its inference helper. -/
structure YiCoder where
  generation_config : ModelConfig
  tokenizer : Tokenizer
  transformer : YiCoderTransformer
  sender : Option Channel

/-- yi_coder.rs `YiCoder::infer` (lines 162-395): encode and concatenate
the messages, one forward pass, the single-token section (which always
runs first and whose value is the non-streaming reply), then — only when
`stream` is set — the decode loop whose accumulated text replaces the
reply.  The uniform-fallback early return skips the streaming block. -/
def YiCoder.infer (ops : RealOps) (self : YiCoder)
    (messages : List ChatCompletionMessage) (params : ChatCompletionParams)
    (rng : Nat → ℚ) : Except AppError (List ChatCompletionMessage) := do
  let _temp := params.temperature.getD self.generation_config.temperature
  let _top_p := params.top_p.getD self.generation_config.top_p
  let _max_tokens := params.max_tokens.getD self.generation_config.max_tokens
  let tokenizer := self.tokenizer
  let input_ids := messages.foldl (fun acc m => acc ++ tokenizer.encode m.content) []
  let input_tensor ← liftC (Tensor.fromSlice (input_ids.map (fun n => FP.num n))
    [1, input_ids.length])
  let input_tensor ← liftC (input_tensor.squeeze 0)
  let logits ← liftC (self.transformer.forward ops input_tensor)
  let logits ← liftC (logits.unsqueeze 0)
  let outcome ← yiSingleToken ops tokenizer logits params rng
  match outcome with
  | .earlyReturn msgs => return msgs
  | .produced msgs =>
      if params.stream.getD false then do
        let max_tokens := params.max_tokens.getD self.generation_config.max_tokens
        let st0 : StreamState := ⟨"", 0, input_ids, self.sender, 1⟩
        let st ← yiStreamLoop ops tokenizer self.transformer params.temperature rng
          max_tokens logits max_tokens st0
        return [⟨"assistant", st.stream_output⟩]
      else return msgs

/-! ## deepseek_coder/infer.rs `sample_tokens` -/

/-- The cumulative scan of `sample_tokens`: first index whose cumulative
probability reaches the drawn value. -/
def dsScan : List FP → ℚ → Nat → FP → Option Nat
  | [], _, _, _ => none
  | p :: rest, rv, i, cum =>
      let cum2 := FP.add cum p
      if FP.le (.num rv) cum2 then some i else dsScan rest rv (i + 1) cum2

/-- deepseek_coder/infer.rs `sample_tokens` (lines 139-160): with a
temperature, scale by a one-element tensor (a same-shape `div`, so any
logits vector longer than one errors), softmax over dim 0, cumulative
draw; without one — or when the scan falls through — greedy
`argmax(0).to_scalar()`. -/
def sample_tokens (ops : RealOps) (logits : Tensor) (params : ChatCompletionParams)
    (random_val : ℚ) : Except AppError (List Nat) := do
  match params.temperature with
  | some temp => do
      let scaled ← liftC (Tensor.binOp "div" FP.div logits (Tensor.ofVec [temp]))
      let probs ← liftC (candleSoftmax ops scaled 0)
      let probs_vec ← liftC probs.toVec1
      match dsScan probs_vec random_val 0 (FP.num 0) with
      | some i => return [i]
      | none => do
          let am ← liftC (Tensor.argmaxDim logits 0)
          let sc ← liftC am.toScalar
          return [fpToNat sc]
  | none => do
      let am ← liftC (Tensor.argmaxDim logits 0)
      let sc ← liftC am.toScalar
      return [fpToNat sc]

/-! ## Model manager (src/service/models/mod.rs) -/

/-- mod.rs `ModelStatus`. -/
structure ModelStatus where
  is_cached : Bool
  is_enabled : Bool
deriving DecidableEq, Repr

/-- mod.rs `ModelError`. -/
inductive ModelError where
  | unsupportedModel : String → ModelError
  | unknownModel : String → ModelError
  | initializationFailed : String → ModelError
deriving DecidableEq, Repr

/-- The manager's mutable state: the two per-model handle slots (a loaded
handle carries no data relevant to any claim) and the status map. -/
structure ManagerState where
  yi_coder : Option Unit
  deepseek_coder : Option Unit
  model_status : String → Option ModelStatus

/-- `HashMap::insert`. -/
def insertStatus (m : String → Option ModelStatus) (k : String) (v : ModelStatus) :
    String → Option ModelStatus :=
  fun s => if s = k then some v else m s

def yiCoderDir : String := "models_cache/01-ai/Yi-Coder-1.5B-Chat"

def yiCoderFiles : List String :=
  ["model.safetensors", "config.json", "tokenizer.model", "tokenizer_config.json",
   "tokenizer.json", "generation_config.json"]

def deepseekCoderDir : String := "models_cache/deepseek-ai/DeepSeek-Coder-V2-Lite-Instruct"

def deepseekCoderFiles : List String :=
  ["model-00001-of-000004.safetensors", "model-00002-of-000004.safetensors",
   "model-00003-of-000004.safetensors", "model-00004-of-000004.safetensors",
   "config.json", "tokenizer.json", "tokenizer_config.json", "generation_config.json"]

/-- mod.rs `refresh_status_from_disk` over a disk-presence predicate:
`is_cached` iff some required file exists, `is_enabled` iff all do. -/
def refresh_status_from_disk (disk : String → Bool) (st : ManagerState) : ManagerState :=
  let yiAny := yiCoderFiles.any (fun f => disk (yiCoderDir ++ "/" ++ f))
  let yiAll := yiCoderFiles.all (fun f => disk (yiCoderDir ++ "/" ++ f))
  let dsAny := deepseekCoderFiles.any (fun f => disk (deepseekCoderDir ++ "/" ++ f))
  let dsAll := deepseekCoderFiles.all (fun f => disk (deepseekCoderDir ++ "/" ++ f))
  let ms := insertStatus (insertStatus st.model_status "yi-coder" ⟨yiAny, yiAll⟩)
    "deepseek-coder" ⟨dsAny, dsAll⟩
  { st with model_status := ms }

/-- mod.rs `ModelManager::new`: refresh from disk, then unconditionally
overwrite both entries with `{is_cached: false, is_enabled: false}`. -/
def ModelManager.new (disk : String → Bool) : ManagerState :=
  let st0 : ManagerState := ⟨none, none, fun _ => none⟩
  let st1 := refresh_status_from_disk disk st0
  let ms1 := insertStatus st1.model_status "yi-coder" ⟨false, false⟩
  let st2 := { st1 with model_status := ms1 }
  let ms2 := insertStatus st2.model_status "deepseek-coder" ⟨false, false⟩
  { st2 with model_status := ms2 }

/-- mod.rs `ModelManager::download_model`: the fallible model construction
is passed in as its outcome (it performs filesystem and network work); on
success the handle slot is replaced and the status set to cached+enabled,
on failure the error propagates before any mutation. -/
def download_model (st : ManagerState) (model_id : String)
    (yiNew : Except String Unit) (dsNew : Except String Unit) :
    Except ModelError Unit × ManagerState :=
  match st.model_status model_id with
  | none => (.error (.unknownModel model_id), st)
  | some _ =>
      if model_id = "yi-coder" then
        match yiNew with
        | .error e => (.error (.initializationFailed ("Yi-Coder: " ++ e)), st)
        | .ok h =>
            let ms := insertStatus st.model_status model_id ⟨true, true⟩
            (.ok (), { st with yi_coder := some h, model_status := ms })
      else if model_id = "deepseek-coder" then
        match dsNew with
        | .error e => (.error (.initializationFailed ("DeepSeek-Coder: " ++ e)), st)
        | .ok h =>
            let ms := insertStatus st.model_status model_id ⟨true, true⟩
            (.ok (), { st with deepseek_coder := some h, model_status := ms })
      else (.error (.unsupportedModel model_id), st)

/-- mod.rs `ModelManager::get_model_status`: a plain map lookup, no disk
probe. -/
def get_model_status (st : ManagerState) (model_id : String) : Option ModelStatus :=
  st.model_status model_id

/-- mod.rs `ModelManager::is_model_available`. -/
def is_model_available (st : ManagerState) (model_id : String) : Bool :=
  match st.model_status model_id with
  | some s => s.is_cached && s.is_enabled
  | none => false

/-- mod.rs `ModelManager::get_all_model_status`: refreshes from disk first,
then returns the map (and the refreshed state). -/
def get_all_model_status (disk : String → Bool) (st : ManagerState) :
    (String → Option ModelStatus) × ManagerState :=
  let st2 := refresh_status_from_disk disk st
  (st2.model_status, st2)

/-! ## Asset downloader (src/utils/download.rs, yi_coder/loader.rs) -/

/-- utils/config.rs `ModelFiles`. -/
structure ModelFiles where
  weights : List String
  config : String
  tokenizer : String
  tokenizer_config : String
  generation_config : String
deriving DecidableEq, Repr

/-- The per-file loop of `ModelDownloader::download_all_model_files`: an
existing local file is skipped, a missing one is fetched from the hub and
persisted (the hub fetch is modelled as succeeding; a network failure
would abort the whole call and fetches nothing extra).  Returns the local
paths, the resulting disk state, and the fetched file names. -/
def downloadFilesGo (cache_dir : String) :
    List String → (String → Bool) → List String × (String → Bool) × List String
  | [], present => ([], present, [])
  | f :: rest, present =>
      let local_path := cache_dir ++ "/" ++ f
      if present local_path then
        let r := downloadFilesGo cache_dir rest present
        (local_path :: r.1, r.2.1, r.2.2)
      else
        let present1 : String → Bool := fun s => s = local_path || present s
        let r := downloadFilesGo cache_dir rest present1
        (local_path :: r.1, r.2.1, f :: r.2.2)

/-- download.rs `ModelDownloader::download_all_model_files` over a disk
state: only files missing at their local path are fetched. -/
def download_all_model_files (models_cache_dir hub_id : String)
    (present : String → Bool) (files : List String) :
    List String × (String → Bool) × List String :=
  downloadFilesGo (models_cache_dir ++ "/" ++ hub_id) files present

/-- loader.rs `ModelLoader::new`, the file-resolution part: weights
filtered to `.safetensors`, the tokenizer only when it ends in `.model`,
the three config files; only the ones missing on disk are requested, and
nothing is fetched when none is missing.  Returns the resulting disk
state and the fetched file names (`config/app.yml` sets
`models_cache_dir` to `models_cache`, the literal the loader probes). -/
def modelLoaderNew (mf : ModelFiles) (hub_id : String) (present : String → Bool) :
    (String → Bool) × List String :=
  let cache_dir := "models_cache" ++ "/" ++ hub_id
  let wfiles := (mf.weights.filter (fun w => w.endsWith ".safetensors")).filter
    (fun w => !(present (cache_dir ++ "/" ++ w)))
  let tfiles := if mf.tokenizer.endsWith ".model" ∧
      !(present (cache_dir ++ "/" ++ mf.tokenizer)) then [mf.tokenizer] else []
  let cfiles := [mf.config, mf.tokenizer_config, mf.generation_config].filter
    (fun f => !(present (cache_dir ++ "/" ++ f)))
  let files_to_download := wfiles ++ tfiles ++ cfiles
  if files_to_download.isEmpty then (present, [])
  else
    let r := download_all_model_files "models_cache" hub_id present files_to_download
    (r.2.1, r.2.2)

/-! ## yi_coder/infer.rs `YiCoderInference::infer` (the parameter-validating
entry point) -/

/-- infer.rs lines 28-129: validate temperature, top_p, n, max_tokens — in
that order, each failure an `InvalidParameter` carrying the localized
message key — before any other work; then produce the echo reply (stream
variant pushes one message; the blocking `send` can only fail here on a
closed channel — a full one would suspend, which a sequential model
cannot exhibit). -/
def YiCoderInference.infer (sender : Option Channel)
    (messages : List ChatCompletionMessage) (temperature top_p : Option FP)
    (n max_tokens : Option Nat) (stream : Option Bool) :
    Except AppError (List ChatCompletionMessage) × Option Channel :=
  let temperature := temperature.getD (.num (mkRat 7 10))
  if FP.le temperature (.num 0) || FP.lt (.num 2) temperature then
    (.error (.invalidParameter "errors.validation.temperature_range"), sender)
  else
    let top_p := top_p.getD (.num (mkRat 9 10))
    if FP.le top_p (.num 0) || FP.lt (.num 1) top_p then
      (.error (.invalidParameter "errors.validation.top_p_range"), sender)
    else
      let n := n.getD 1
      if n = 0 then (.error (.invalidParameter "errors.validation.n_range"), sender)
      else
        let max_tokens := max_tokens.getD 100
        if max_tokens = 0 then
          (.error (.invalidParameter "errors.validation.max_tokens_range"), sender)
        else
          let prompt := String.intercalate "\n"
            (messages.map (fun m => m.role ++ ": " ++ m.content))
          if stream = some true then
            match sender with
            | none => (.error (.generic "errors.stream.sender_not_initialized"), none)
            | some c =>
                let message : ChatCompletionMessage :=
                  ⟨"assistant", "Streaming response (temp: " ++ temperature.render ++
                    ", top_p: " ++ top_p.render ++ ", n: " ++ toString n ++
                    ", max_tokens: " ++ toString max_tokens ++ ")..."⟩
                if c.closed then
                  (.error (.generic "errors.stream_response.failed"), some c)
                else
                  (.ok [message], some { c with buffer := c.buffer ++ [message] })
          else
            (.ok [⟨"assistant", "Processed prompt (temp: " ++ temperature.render ++
              ", top_p: " ++ top_p.render ++ ", n: " ++ toString n ++
              ", max_tokens: " ++ toString max_tokens ++ "):\n" ++ prompt⟩], sender)

/-- Decidable equality for `Except` results (used by the concrete-input
theorems below). -/
instance {e a : Type} [DecidableEq e] [DecidableEq a] : DecidableEq (Except e a) :=
  fun x y =>
  match x, y with
  | .ok v, .ok w =>
      if h : v = w then .isTrue (h ▸ rfl) else .isFalse (fun hc => h (Except.ok.inj hc))
  | .error v, .error w =>
      if h : v = w then .isTrue (h ▸ rfl) else .isFalse (fun hc => h (Except.error.inj hc))
  | .ok _, .error _ => .isFalse (fun hc => Except.noConfusion hc)
  | .error _, .ok _ => .isFalse (fun hc => Except.noConfusion hc)

/-! ## Concrete fixtures for the claim theorems -/

/-- All entries of a tensor are finite (no NaN, no infinity). -/
def Tensor.allFinite (t : Tensor) : Bool :=
  t.data.all (fun v => !(v.isNaN || v.isInfinite))

/-- A concrete executable `RealOps` used when a witness has to evaluate the
pipeline end-to-end: `exp` is the constant 1 (positive, so the softmax
checks pass), `sqrt` and `gelu` are the identity on the rational core.
The claims instantiated at it never depend on the analytic values. -/
def opsC : RealOps := ⟨fun _ => 1, id, id⟩

/-- A concrete tokenizer: every message encodes to the two ids `[0, 1]`,
and decoding reports how many tokens were decoded. -/
def tokC : Tokenizer := ⟨fun _ => [0, 1], fun ids => "decoded:" ++ toString ids.length⟩

/-- A small yi-coder `ModelConfig`: hidden size 2, vocabulary 2, no
layers. -/
def configZero : ModelConfig :=
  ⟨0, 0, 0, .num (mkRat 7 10), .num (mkRat 9 10), 100, 2, 1, 2, 0, mkRat 1 100000, 2⟩

/-- Same architecture with one transformer layer. -/
def configOne : ModelConfig :=
  ⟨0, 0, 0, .num (mkRat 7 10), .num (mkRat 9 10), 100, 2, 1, 2, 1, mkRat 1 100000, 2⟩

/-- A weight store holding only the required final-norm weight (zeros):
the embedding table and the final-norm bias fall back to zeros. -/
def vbZero : VarBuilder :=
  ⟨"", fun s => if s = "model.norm.weight" then some (Tensor.zeros [2]) else none⟩

/-- The transformer `YiCoderTransformer::new configZero vbZero` builds:
zero embedding table (fallback), no layers, zero final norm. -/
def trZero : YiCoderTransformer :=
  ⟨⟨Tensor.zeros [2, 2], 2⟩, [], ⟨Tensor.zeros [2], Tensor.zeros [2], mkRat 1 100000⟩, configZero⟩

/-- A store with unit final-norm weight and a fractional final-norm bias,
so the forward output rows are `[2/5, 7/10]` — fractional, non-zero. -/
def vbFrac : VarBuilder :=
  ⟨"", fun s =>
    if s = "model.norm.weight" then some (Tensor.ofVec [.num 1, .num 1])
    else if s = "model.norm.bias" then some (Tensor.ofVec [.num (mkRat 2 5), .num (mkRat 7 10)])
    else none⟩

def trFrac : YiCoderTransformer :=
  ⟨⟨Tensor.zeros [2, 2], 2⟩, [],
    ⟨Tensor.ofVec [.num 1, .num 1], Tensor.ofVec [.num (mkRat 2 5), .num (mkRat 7 10)], mkRat 1 100000⟩,
    configZero⟩

def lnZero : LayerNorm := ⟨Tensor.zeros [2], Tensor.zeros [2], mkRat 1 100000⟩

def linZero : Linear := ⟨Tensor.zeros [2, 2], Tensor.zeros [2]⟩

/-- A single all-zero transformer layer (1 head of dimension 2). -/
def layerZero : TransformerLayer :=
  ⟨⟨linZero, linZero, linZero, linZero, 1, 2⟩, ⟨linZero, linZero⟩, lnZero, lnZero⟩

/-- One-layer transformer: its forward pass on the rank-2 hidden states
dies in `dims3` inside the attention block. -/
def trOne : YiCoderTransformer := ⟨⟨Tensor.zeros [2, 2], 2⟩, [layerZero], lnZero, configOne⟩

/-- Zero-layer yi-coder model with no streaming sender. -/
def ycZero : YiCoder := ⟨configZero, tokC, trZero, none⟩

/-- Zero-layer yi-coder model whose streaming channel the consumer has
closed (any push would fail). -/
def ycZeroClosed : YiCoder := ⟨configZero, tokC, trZero, some ⟨8, [], true⟩⟩

def ycFrac : YiCoder := ⟨configZero, tokC, trFrac, none⟩

def ycOne : YiCoder := ⟨configOne, tokC, trOne, none⟩

/-- One user message. -/
def msgsHello : List ChatCompletionMessage := [⟨"user", "Hello"⟩]

/-- A zero random stream (the weighted draw picks the first bucket). -/
def rng0 : Nat → ℚ := fun _ => 0

/-! ## Helper lemmas (shared) -/

/-- Reading a list back element-by-element with `getD` over its range. -/
theorem map_getD_range (l : List FP) :
    (List.range l.length).map (fun k => l.getD k .nan) = l := by
  induction l with
  | nil => rfl
  | cons a tl ih =>
      have h1 : List.range (tl.length + 1) = 0 :: (List.range tl.length).map (· + 1) :=
        List.range_succ_eq_map tl.length
      simp only [List.length_cons, h1, List.map_cons, List.map_map]
      refine congrArg (List.cons _) ?_
      have h2 : ((fun k => (a :: tl).getD k FP.nan) ∘ fun x => x + 1) =
          fun k => tl.getD k FP.nan := by
        funext k
        rfl
      rw [h2]
      exact ih

/-- A validation success means every entry is finite. -/
theorem validate_ok_allFinite (t : Tensor) (ctx : String)
    (h : validate_tensor t ctx = .ok ()) : t.allFinite = true := by
  simp only [validate_tensor] at h
  split at h
  · exact absurd h (by simp)
  · rename_i hcond
    push_neg at hcond
    have hnan : t.data.countP (fun v => v.isNaN) = 0 := Nat.le_zero.mp hcond.1
    have hinf : t.data.countP (fun v => v.isInfinite) = 0 := Nat.le_zero.mp hcond.2
    rw [List.countP_eq_zero] at hnan hinf
    simp only [Tensor.allFinite, List.all_eq_true]
    intro v hv
    have h1 := hnan v hv
    have h2 := hinf v hv
    simp only [Bool.not_eq_true] at h1 h2
    simp [h1, h2]

/-! ## Claim C1 -/

/-- C1, counterexample: on a disk where every required yi-coder artifact
exists, a freshly constructed manager (`ModelManager::new`, which
refreshes from disk and then overwrites both entries with
`{is_cached: false, is_enabled: false}`) answers `get_model_status
"yi-coder"` with `is_enabled = false` — although every required file
exists at call time.  So `status(id).is_enabled` does not hold iff every
required artifact exists at the time of the `get_model_status` call. -/
theorem c1_counterexample :
    get_model_status (ModelManager.new (fun _ => true)) "yi-coder" =
      some ⟨false, false⟩ ∧
    yiCoderFiles.all (fun f => (fun _ => true) (yiCoderDir ++ "/" ++ f)) = true := by
  constructor
  · rfl
  · rfl

/-- C1, amended: the disk-derived invariant holds for the refresh path
only.  After `refresh_status_from_disk` (run by `get_all_model_status`
before answering), the recorded status of each supported model has
`is_enabled` iff every required file exists and `is_cached` iff at least
one does; `get_model_status` itself is a plain map lookup without a disk
probe, and `download_model` sets both flags true on success without
re-probing. -/
theorem c1_amended (disk : String → Bool) (st : ManagerState) :
    get_model_status (refresh_status_from_disk disk st) "yi-coder" =
      some ⟨yiCoderFiles.any (fun f => disk (yiCoderDir ++ "/" ++ f)),
            yiCoderFiles.all (fun f => disk (yiCoderDir ++ "/" ++ f))⟩ ∧
    get_model_status (refresh_status_from_disk disk st) "deepseek-coder" =
      some ⟨deepseekCoderFiles.any (fun f => disk (deepseekCoderDir ++ "/" ++ f)),
            deepseekCoderFiles.all (fun f => disk (deepseekCoderDir ++ "/" ++ f))⟩ ∧
    (get_all_model_status disk st).1 "yi-coder" =
      some ⟨yiCoderFiles.any (fun f => disk (yiCoderDir ++ "/" ++ f)),
            yiCoderFiles.all (fun f => disk (yiCoderDir ++ "/" ++ f))⟩ := by
  refine ⟨?_, ?_, ?_⟩ <;>
    simp [get_model_status, get_all_model_status, refresh_status_from_disk, insertStatus]

/-! ## Claim C2 -/

/-- C2, counterexample: `temperature = 3.0` is outside `(0, 2]`, yet the
actual tensor inference path `YiCoder::infer` completes successfully
(here on the zero-layer toy model): no `InvalidParameter` error is
produced at all, let alone before tensor computation.  The range
validation lives only in the separate `YiCoderInference::infer` echo
path, which the tensor path never calls. -/
theorem c2_counterexample :
    FP.lt (.num 2) (.num 3) = true ∧
    YiCoder.infer opsC ycZero msgsHello ⟨some (.num 3), none, none, some 5, none⟩ rng0 =
      .ok [⟨"assistant", "decoded:1"⟩] := by
  exact ⟨by decide, by with_unfolding_all rfl⟩

/-- C2, amended: the parameter validation exists, in the order
temperature, top_p, n, max_tokens, each rejecting with a field-naming
`InvalidParameter` before any other work — but only in
`YiCoderInference::infer` (infer.rs); the tensor path `YiCoder::infer`
performs no range validation (see the counterexample). -/
theorem c2_amended :
    (∀ (sender : Option Channel) (msgs : List ChatCompletionMessage)
        (tp : Option FP) (n mt : Option Nat) (stream : Option Bool) (t : FP),
      (FP.le t (.num 0) || FP.lt (.num 2) t) = true →
      (YiCoderInference.infer sender msgs (some t) tp n mt stream).1 =
        .error (.invalidParameter "errors.validation.temperature_range")) ∧
    (∀ (sender : Option Channel) (msgs : List ChatCompletionMessage)
        (n mt : Option Nat) (stream : Option Bool) (p : FP),
      (FP.le p (.num 0) || FP.lt (.num 1) p) = true →
      (YiCoderInference.infer sender msgs none (some p) n mt stream).1 =
        .error (.invalidParameter "errors.validation.top_p_range")) ∧
    (∀ (sender : Option Channel) (msgs : List ChatCompletionMessage)
        (mt : Option Nat) (stream : Option Bool),
      (YiCoderInference.infer sender msgs none none (some 0) mt stream).1 =
        .error (.invalidParameter "errors.validation.n_range")) ∧
    (∀ (sender : Option Channel) (msgs : List ChatCompletionMessage)
        (stream : Option Bool),
      (YiCoderInference.infer sender msgs none none none (some 0) stream).1 =
        .error (.invalidParameter "errors.validation.max_tokens_range")) := by
  refine ⟨?_, ?_, ?_, ?_⟩
  · intro sender msgs tp n mt stream t h
    simp [YiCoderInference.infer, h]
  · intro sender msgs n mt stream p h
    have h1 : (FP.le (FP.num (mkRat 7 10)) (FP.num 0) ||
        FP.lt (FP.num 2) (FP.num (mkRat 7 10))) = false := by decide
    simp [YiCoderInference.infer, h, h1]
  · intro sender msgs mt stream
    have h1 : (FP.le (FP.num (mkRat 7 10)) (FP.num 0) ||
        FP.lt (FP.num 2) (FP.num (mkRat 7 10))) = false := by decide
    have h2 : (FP.le (FP.num (mkRat 9 10)) (FP.num 0) ||
        FP.lt (FP.num 1) (FP.num (mkRat 9 10))) = false := by decide
    simp [YiCoderInference.infer, h1, h2]
  · intro sender msgs stream
    have h1 : (FP.le (FP.num (mkRat 7 10)) (FP.num 0) ||
        FP.lt (FP.num 2) (FP.num (mkRat 7 10))) = false := by decide
    have h2 : (FP.le (FP.num (mkRat 9 10)) (FP.num 0) ||
        FP.lt (FP.num 1) (FP.num (mkRat 9 10))) = false := by decide
    simp [YiCoderInference.infer, h1, h2]

/-- C2 witness: each validation conjunct applied at a concrete
out-of-range input. -/
theorem c2_amended_witness :
    (YiCoderInference.infer none [] (some (.num 3)) none none none none).1 =
      .error (.invalidParameter "errors.validation.temperature_range") ∧
    (YiCoderInference.infer none [] none (some (.num (mkRat 3 2))) none none none).1 =
      .error (.invalidParameter "errors.validation.top_p_range") ∧
    (YiCoderInference.infer none [] none none (some 0) none none).1 =
      .error (.invalidParameter "errors.validation.n_range") ∧
    (YiCoderInference.infer none [] none none none (some 0) none).1 =
      .error (.invalidParameter "errors.validation.max_tokens_range") :=
  ⟨c2_amended.1 none [] none none none none (.num 3) (by decide),
   c2_amended.2.1 none [] none none none (.num (mkRat 3 2)) (by decide),
   c2_amended.2.2.1 none [] none none,
   c2_amended.2.2.2 none [] none⟩

/-! ## Claim C3 -/

/-- C3: non-streaming inference returns after exactly one sampled token.
On the zero-layer toy model with `temperature = 1` and `max_tokens = 5`
(and in fact for every `max_tokens`), `YiCoder::infer` runs a single
forward pass, samples one token and returns its decoding (the fixture
decoder renders the number of decoded tokens, here `1`); no decode loop
runs in the non-streaming path.  The claim — iterate until `max_tokens`
and never return after one token — is what the spec demands, and the
code does not do it: this exhibits the code bug. -/
theorem c3_single_token_reply :
    (∀ mt : Option Nat,
      YiCoder.infer opsC ycZero msgsHello ⟨some (.num 1), none, none, mt, none⟩ rng0 =
        .ok [⟨"assistant", "decoded:1"⟩]) ∧
    YiCoder.infer opsC ycZero msgsHello ⟨some (.num 1), none, none, some 5, none⟩ rng0 =
      .ok [⟨"assistant", "decoded:1"⟩] := by
  constructor
  · intro mt
    with_unfolding_all rfl
  · with_unfolding_all rfl

/-! ## Claim C4 -/

/-- C4, counterexample: `temperature = -1` is not finite-and-positive, so
per the claim it must be rejected before any tensor work.  Instead, on
the one-layer toy model the call returns the attention `dims3` rank
error of the forward pass: the forward pass ran (and failed) before the
temperature was ever validated. -/
theorem c4_counterexample :
    FP.le (.num (FP.qofInt (-1))) (.num 0) = true ∧
    YiCoder.infer opsC ycOne msgsHello
      ⟨some (.num (FP.qofInt (-1))), none, none, some 5, none⟩ rng0 =
      .error (.candle (.unexpectedRank 3 2 "dims3")) := by
  exact ⟨by decide, by with_unfolding_all rfl⟩

/-- Evaluation helper: the fractional-logits model, draw 0. -/
theorem evalFracDraw0 :
    YiCoder.infer opsC ycFrac msgsHello ⟨some (.num 1), none, none, some 5, none⟩
      (fun _ => 0) = .ok [⟨"assistant", "decoded:1"⟩] := by
  with_unfolding_all rfl

/-- Evaluation helper: the zero-logits model, draw 0. -/
theorem evalZeroDraw0 :
    YiCoder.infer opsC ycZero msgsHello ⟨some (.num 1), none, none, some 5, none⟩
      (fun _ => 0) = .ok [⟨"assistant", "decoded:1"⟩] := by
  with_unfolding_all rfl

/-- Evaluation helper: the fractional-logits model, draw 3/4 (second
bucket of the sampling distribution). -/
theorem evalFracDraw34 :
    YiCoder.infer opsC ycFrac msgsHello ⟨some (.num 1), none, none, some 5, none⟩
      (fun _ => mkRat 3 4) = .ok [⟨"assistant", "decoded:1"⟩] := by
  with_unfolding_all rfl

/-- Evaluation helper: the zero-logits model, draw 3/4. -/
theorem evalZeroDraw34 :
    YiCoder.infer opsC ycZero msgsHello ⟨some (.num 1), none, none, some 5, none⟩
      (fun _ => mkRat 3 4) = .ok [⟨"assistant", "decoded:1"⟩] := by
  with_unfolding_all rfl

/-- Evaluation helper: one-layer model with a NaN temperature returns the
forward rank error. -/
theorem evalOneNan :
    YiCoder.infer opsC ycOne msgsHello ⟨some .nan, none, none, some 5, none⟩ rng0 =
      .error (.candle (.unexpectedRank 3 2 "dims3")) := by
  with_unfolding_all rfl

/-- C4, amended: the temperature path samples from a softmax of the
U32-round-tripped (truncated) final-position logits scaled by `1/t`, and
an invalid temperature is rejected only after the forward pass.
Concretely: (i) the two toy models produce different logits
(`[2/5, 7/10]` rows versus zero rows), yet the sampled reply is
identical on draws that select either bucket of the two-token
distribution, because the U32 truncation collapses both rows to `[0, 0]`
before scaling and softmax; (ii) a NaN temperature and a negative
temperature each still produce the forward pass's rank error on the
one-layer model, not a temperature-validation error. -/
theorem c4_amended :
    (trFrac.forward opsC (Tensor.ofVec [.num 0, .num 1]) =
      .ok ⟨[2, 2], [.num (mkRat 2 5), .num (mkRat 7 10),
                    .num (mkRat 2 5), .num (mkRat 7 10)]⟩) ∧
    (trZero.forward opsC (Tensor.ofVec [.num 0, .num 1]) =
      .ok ⟨[2, 2], [.num 0, .num 0, .num 0, .num 0]⟩) ∧
    (YiCoder.infer opsC ycFrac msgsHello ⟨some (.num 1), none, none, some 5, none⟩
        (fun _ => 0) =
      YiCoder.infer opsC ycZero msgsHello ⟨some (.num 1), none, none, some 5, none⟩
        (fun _ => 0)) ∧
    (YiCoder.infer opsC ycFrac msgsHello ⟨some (.num 1), none, none, some 5, none⟩
        (fun _ => mkRat 3 4) =
      YiCoder.infer opsC ycZero msgsHello ⟨some (.num 1), none, none, some 5, none⟩
        (fun _ => mkRat 3 4)) ∧
    (YiCoder.infer opsC ycOne msgsHello ⟨some .nan, none, none, some 5, none⟩ rng0 =
      .error (.candle (.unexpectedRank 3 2 "dims3"))) := by
  refine ⟨?_, ?_, ?_, ?_, ?_⟩
  · with_unfolding_all rfl
  · with_unfolding_all rfl
  · rw [evalFracDraw0, evalZeroDraw0]
  · rw [evalFracDraw34, evalZeroDraw34]
  · exact evalOneNan

/-! ## Claim C5 -/

/-- C5, counterexample: with temperature absent, the yi-coder greedy path
evaluates `logits.argmax(1).to_scalar()` on the batched rank-3 logits;
`argmax(1)` leaves a rank-2 tensor and `to_scalar` then fails, so the
call errors instead of returning the arg-max of the final-position
logits over the vocabulary dimension. -/
theorem c5_counterexample :
    YiCoder.infer opsC ycZero msgsHello ⟨none, none, none, some 5, none⟩ rng0 =
      .error (.candle (.unexpectedRank 0 2 "to_scalar")) := by
  with_unfolding_all rfl

/-- Reducing a rank-1 tensor along its only dimension yields the single
slice value. -/
theorem reduceRm_ofVec (xs : List FP) (f : List FP → FP) (name : String)
    (h : xs ≠ []) :
    Tensor.reduceRm (Tensor.ofVec xs) 0 f name = .ok ⟨[], [f xs]⟩ := by
  have hlen : xs.length ≠ 0 := fun hc => h (List.length_eq_zero.mp hc)
  unfold Tensor.reduceRm
  rw [if_pos (by simp [Tensor.ofVec, Tensor.rank])]
  rw [if_neg (by simpa [Tensor.ofVec] using hlen)]
  unfold Tensor.reduceSlices
  have hr1 : List.range 1 = [0] := by decide
  simp only [Tensor.ofVec, Tensor.numel, List.take_zero, List.drop_succ_cons,
    List.drop_nil, List.prod_nil, hr1, List.flatMap_cons,
    List.map_cons, List.map_nil, List.flatMap_nil, List.append_nil,
    List.getD_cons_zero, List.prod_cons, List.drop_zero]
  refine congrArg (fun l => Except.ok (Tensor.mk [] [f l])) ?_
  have : ∀ k, Tensor.get ⟨[xs.length], xs⟩ ((0 * xs.length + k) * 1 + 0) =
      xs.getD k .nan := by
    intro k
    simp [Tensor.get]
  simp only [this]
  exact map_getD_range xs

/-- C5, amended: the deepseek greedy sampler (`argmax(0).to_scalar()` on a
rank-1 logits vector) returns the deterministic arg-max over the
vocabulary dimension, independent of the random draw; the yi-coder
greedy expression, by contrast, errors on its batched logits (see the
counterexample). -/
theorem c5_amended (ops : RealOps) (xs : List FP) (r1 r2 : ℚ) (h : xs ≠ []) :
    sample_tokens ops (Tensor.ofVec xs) ⟨none, none, none, none, none⟩ r1 =
      .ok [Tensor.listArgmax xs] ∧
    sample_tokens ops (Tensor.ofVec xs) ⟨none, none, none, none, none⟩ r1 =
      sample_tokens ops (Tensor.ofVec xs) ⟨none, none, none, none, none⟩ r2 := by
  refine ⟨?_, rfl⟩
  have ha : Tensor.argmaxDim (Tensor.ofVec xs) 0 =
      .ok ⟨[], [.num (FP.qofNat (Tensor.listArgmax xs))]⟩ :=
    reduceRm_ofVec xs _ "argmax" h
  simp only [sample_tokens, Tensor.argmaxDim] at ha ⊢
  rw [ha]
  simp only [liftC, Tensor.toScalar, Tensor.rank, Tensor.get, fpToNat, FP.qofNat]
  rw [Rat.divInt_one]
  show Except.ok [((Tensor.listArgmax xs : ℚ)).num.toNat] = Except.ok [Tensor.listArgmax xs]
  simp

/-- C5 witness: the amended greedy theorem at the deepseek test vector
`[1, 2, 3]` (arg-max index 2). -/
theorem c5_amended_witness :
    sample_tokens opsC (Tensor.ofVec [.num 1, .num 2, .num 3])
      ⟨none, none, none, none, none⟩ 0 =
      .ok [Tensor.listArgmax [FP.num 1, FP.num 2, FP.num 3]] ∧
    Tensor.listArgmax [FP.num 1, FP.num 2, FP.num 3] = 2 :=
  ⟨(c5_amended opsC [.num 1, .num 2, .num 3] 0 1 (by decide)).1, by decide⟩

/-! ## Claim C6 -/

/-- C6: a failed `download_model` call leaves the manager state exactly as
it was — the handle slots and the recorded `ModelStatus` are unchanged,
because the error propagates before any mutation. -/
theorem c6_download_error_preserves_state (st : ManagerState) (model_id : String)
    (yiNew dsNew : Except String Unit) (e : ModelError)
    (h : (download_model st model_id yiNew dsNew).1 = .error e) :
    (download_model st model_id yiNew dsNew).2 = st := by
  unfold download_model at h ⊢
  cases hs : st.model_status model_id with
  | none => simp [hs]
  | some v =>
      simp only [hs] at h ⊢
      by_cases h1 : model_id = "yi-coder"
      · simp only [if_pos h1] at h ⊢
        cases yiNew with
        | error s => rfl
        | ok u => simp at h
      · simp only [if_neg h1] at h ⊢
        by_cases h2 : model_id = "deepseek-coder"
        · simp only [if_pos h2] at h ⊢
          cases dsNew with
          | error s => rfl
          | ok u => simp at h
        · simp only [if_neg h2]

/-- C6 witness: a failing yi-coder construction on a fresh manager leaves
the state untouched. -/
theorem c6_witness :
    (download_model (ModelManager.new (fun _ => false)) "yi-coder"
      (.error "boom") (.ok ())).2 = ModelManager.new (fun _ => false) :=
  c6_download_error_preserves_state _ "yi-coder" (.error "boom") (.ok ())
    (.initializationFailed "Yi-Coder: boom") (by with_unfolding_all rfl)

/-! ## Claim C7 -/

/-- Fetching never removes a file: presence is monotone. -/
theorem dfg_mono (dir : String) :
    ∀ (files : List String) (present : String → Bool) (p : String),
      present p = true → (downloadFilesGo dir files present).2.1 p = true := by
  intro files
  induction files with
  | nil => intro present p hp; exact hp
  | cons g rest ih =>
      intro present p hp
      unfold downloadFilesGo
      by_cases hg : present (dir ++ "/" ++ g) = true
      · simp only [hg, if_pos]
        exact ih present p hp
      · simp only [hg]
        simp only [Bool.false_eq_true, if_false]
        exact ih _ p (by simp [hp])

/-- After the call every requested file is present at its local path. -/
theorem dfg_all_present (dir : String) :
    ∀ (files : List String) (present : String → Bool) (f : String),
      f ∈ files → (downloadFilesGo dir files present).2.1 (dir ++ "/" ++ f) = true := by
  intro files
  induction files with
  | nil => intro present f hf; cases hf
  | cons g rest ih =>
      intro present f hf
      unfold downloadFilesGo
      by_cases hg : present (dir ++ "/" ++ g) = true
      · simp only [hg, if_pos]
        rcases List.mem_cons.mp hf with hfg | hfr
        · subst hfg
          exact dfg_mono dir rest present _ hg
        · exact ih present f hfr
      · simp only [hg, Bool.false_eq_true, if_false]
        rcases List.mem_cons.mp hf with hfg | hfr
        · subst hfg
          exact dfg_mono dir rest _ _ (by simp)
        · exact ih _ f hfr

/-- A file already present at its local path is never fetched. -/
theorem dfg_present_not_fetched (dir : String) :
    ∀ (files : List String) (present : String → Bool) (f : String),
      present (dir ++ "/" ++ f) = true →
      f ∉ (downloadFilesGo dir files present).2.2 := by
  intro files
  induction files with
  | nil => intro present f _ hmem; cases hmem
  | cons g rest ih =>
      intro present f hp
      unfold downloadFilesGo
      by_cases hg : present (dir ++ "/" ++ g) = true
      · simp only [hg, if_pos]
        exact ih present f hp
      · simp only [hg, Bool.false_eq_true, if_false]
        intro hmem
        rcases List.mem_cons.mp hmem with hfg | hfr
        · subst hfg
          exact hg hp
        · exact ih _ f (by simp [hp]) hfr

/-- When every requested file is already present, nothing is fetched. -/
theorem dfg_nofetch (dir : String) :
    ∀ (files : List String) (present : String → Bool),
      (∀ f, f ∈ files → present (dir ++ "/" ++ f) = true) →
      (downloadFilesGo dir files present).2.2 = [] := by
  intro files
  induction files with
  | nil => intro present _; rfl
  | cons g rest ih =>
      intro present hall
      unfold downloadFilesGo
      have hg : present (dir ++ "/" ++ g) = true := hall g (List.mem_cons_self g rest)
      simp only [hg, if_pos]
      exact ih present (fun f hf => hall f (List.mem_cons_of_mem g hf))

/-- C7: asset download is idempotent.  (i) a file already present in the
cache directory is never fetched by `download_all_model_files`; (ii) a
second call over the same file list fetches nothing — everything the
first call saw is on disk afterwards; (iii) `ModelLoader::new` with
every artifact already present requests no download at all. -/
theorem c7_download_idempotent (models_cache_dir hub_id : String)
    (files : List String) (present : String → Bool) :
    (∀ f, f ∈ files →
      present (models_cache_dir ++ "/" ++ hub_id ++ "/" ++ f) = true →
      f ∉ (download_all_model_files models_cache_dir hub_id present files).2.2) ∧
    (download_all_model_files models_cache_dir hub_id
      (download_all_model_files models_cache_dir hub_id present files).2.1 files).2.2
      = [] ∧
    (∀ mf : ModelFiles, (∀ p, present p = true) →
      modelLoaderNew mf hub_id present = (present, [])) := by
  refine ⟨?_, ?_, ?_⟩
  · intro f _ hp
    exact dfg_present_not_fetched _ files present f hp
  · exact dfg_nofetch _ files _
      (fun f hf => dfg_all_present _ files present f hf)
  · intro mf hall
    simp [modelLoaderNew, hall]

/-- C7 witness: concrete cache with one file present and one missing — the
present file is not fetched; the second pass fetches nothing; a loader
over a fully-present cache requests nothing. -/
theorem c7_witness :
    ("a" ∉ (download_all_model_files "models_cache" "x"
      (fun s => s = "models_cache/x/a") ["a", "b"]).2.2) ∧
    (download_all_model_files "models_cache" "x"
      (download_all_model_files "models_cache" "x"
        (fun s => s = "models_cache/x/a") ["a", "b"]).2.1 ["a", "b"]).2.2 = [] ∧
    modelLoaderNew ⟨["w.safetensors"], "config.json", "tokenizer.model",
        "tokenizer_config.json", "generation_config.json"⟩ "x" (fun _ => true) =
      (fun _ => true, []) :=
  ⟨(c7_download_idempotent "models_cache" "x" ["a", "b"]
      (fun s => s = "models_cache/x/a")).1 "a" (by decide) (by decide),
   (c7_download_idempotent "models_cache" "x" ["a", "b"]
      (fun s => s = "models_cache/x/a")).2.1,
   (c7_download_idempotent "models_cache" "x" ["a", "b"]
      (fun _ => true)).2.2 _ (fun _ => rfl)⟩

/-- Inversion of a successful `Except` bind. -/
theorem except_bind_ok {e α β : Type} {x : Except e α} {f : α → Except e β} {b : β}
    (h : (x >>= f) = .ok b) : ∃ a, x = .ok a ∧ f a = .ok b := by
  cases x with
  | error err => simp [Bind.bind, Except.bind] at h
  | ok a => exact ⟨a, rfl, by simpa [Bind.bind, Except.bind] using h⟩

/-! ## Claim C8 -/

/-- C8: the streaming decode loop never generates more than the effective
`max_tokens` tokens.  The loop counter increments once per iteration,
the guard stops at `max_tokens`, the fuel equals `max_tokens` at the
call site in `YiCoder::infer`, and an early break (failed push) or error
only shortens the run; so every successful exit satisfies the bound. -/
theorem c8_stream_bounded (ops : RealOps) (tok : Tokenizer) (tr : YiCoderTransformer)
    (temperature : Option FP) (rng : Nat → ℚ) (max_tokens : Nat) (logits : Tensor) :
    ∀ (fuel : Nat) (st st2 : StreamState),
      st.generated_tokens ≤ max_tokens →
      yiStreamLoop ops tok tr temperature rng max_tokens logits fuel st = .ok st2 →
      st2.generated_tokens ≤ max_tokens := by
  intro fuel
  induction fuel with
  | zero =>
      intro st st2 h1 h2
      simp only [yiStreamLoop] at h2
      cases h2
      exact h1
  | succ n ih =>
      intro st st2 h1 h2
      simp only [yiStreamLoop] at h2
      by_cases hg : st.generated_tokens < max_tokens
      · rw [if_pos hg] at h2
        cases temperature with
        | some temp =>
            rcases except_bind_ok h2 with ⟨a1, _, h2⟩
            rcases except_bind_ok h2 with ⟨a2, _, h2⟩
            rcases except_bind_ok h2 with ⟨a3, _, h2⟩
            rcases except_bind_ok h2 with ⟨a4, _, h2⟩
            rcases except_bind_ok h2 with ⟨a5, _, h2⟩
            rcases except_bind_ok h2 with ⟨a6, _, h2⟩
            rcases except_bind_ok h2 with ⟨y, _, h2⟩
            rcases hsend : send_stream_response st.sender
                ⟨"assistant", tok.decode [y]⟩ with ⟨res, sender2⟩
            rw [hsend] at h2
            cases res with
            | error e =>
                dsimp only at h2
                cases h2
                exact hg
            | ok u =>
                dsimp only at h2
                rcases except_bind_ok h2 with ⟨b1, _, h2⟩
                rcases except_bind_ok h2 with ⟨b2, _, h2⟩
                rcases except_bind_ok h2 with ⟨b3, _, h2⟩
                refine ih _ st2 ?_ h2
                exact hg
        | none =>
            rcases except_bind_ok h2 with ⟨a1, _, h2⟩
            rcases except_bind_ok h2 with ⟨a2, _, h2⟩
            rcases except_bind_ok h2 with ⟨y, _, h2⟩
            rcases hsend : send_stream_response st.sender
                ⟨"assistant", tok.decode [y]⟩ with ⟨res, sender2⟩
            rw [hsend] at h2
            cases res with
            | error e =>
                dsimp only at h2
                cases h2
                exact hg
            | ok u =>
                dsimp only at h2
                rcases except_bind_ok h2 with ⟨b1, _, h2⟩
                rcases except_bind_ok h2 with ⟨b2, _, h2⟩
                rcases except_bind_ok h2 with ⟨b3, _, h2⟩
                refine ih _ st2 ?_ h2
                exact hg
      · rw [if_neg hg] at h2
        cases h2
        exact h1

/-- C8 witness: the bound instantiated on a concrete loop run (guard
already saturated, successful immediate exit). -/
theorem c8_witness :
    (⟨"", 0, [], none, 0⟩ : StreamState).generated_tokens ≤ 0 :=
  c8_stream_bounded opsC tokC trZero none rng0 0 (Tensor.zeros [1, 2, 2]) 5
    ⟨"", 0, [], none, 0⟩ ⟨"", 0, [], none, 0⟩ (Nat.le_refl 0) (by with_unfolding_all rfl)

/-! ## Claim C9 -/

/-- C9: a forward pass that returns at all returns a tensor with no NaN
and no infinite entry — the final stage validations gate the result, and
every stage boundary (embeddings, each layer, around the final norm) is
guarded by the same stage-naming `validate_tensor`.  The witness runs
the pass on the all-zero-fallback construction (near-zero variance into
the final norm, stabilizing constant added) and gets a finite output. -/
theorem c9_forward_finite (ops : RealOps) (tr : YiCoderTransformer) (input t : Tensor)
    (h : tr.forward ops input = .ok t) : t.allFinite = true := by
  unfold YiCoderTransformer.forward at h
  rcases except_bind_ok h with ⟨hidden, _, h⟩
  rcases except_bind_ok h with ⟨u1, hv1, h⟩
  rcases except_bind_ok h with ⟨u2, hv2, h⟩
  simp only [pure, Except.pure, Except.ok.injEq] at h
  subst h
  cases u2
  exact validate_ok_allFinite _ "Final output" hv2

/-- C9 witness: the zero-weight-store construction (embedding table and
final-norm bias fall back to zeros) runs the forward pass to a finite
all-zero output; the finiteness conclusion is the main theorem applied
to that concrete run. -/
theorem c9_forward_finite_witness :
    YiCoderTransformer.new configZero vbZero = .ok trZero ∧
    trZero.forward opsC (Tensor.ofVec [.num 0, .num 1]) =
      .ok ⟨[2, 2], [.num 0, .num 0, .num 0, .num 0]⟩ ∧
    (Tensor.mk [2, 2] [.num 0, .num 0, .num 0, .num 0]).allFinite = true :=
  ⟨by with_unfolding_all rfl, by with_unfolding_all rfl,
   c9_forward_finite opsC trZero (Tensor.ofVec [.num 0, .num 1]) _
     (by with_unfolding_all rfl)⟩

/-! ## Claim C10 -/

/-- C10, counterexample: streaming generation against a closed channel — a
state in which any push would fail — does not return `Ok` with partially
accumulated content; it fails outright, with the rank error raised by
the custom softmax on the rank-2 scaled logits of the first loop
iteration, before any push is attempted. -/
theorem c10_counterexample :
    (⟨8, [], true⟩ : Channel).closed = true ∧
    YiCoder.infer opsC ycZeroClosed msgsHello
      ⟨some (.num 1), none, none, some 3, some true⟩ rng0 =
      .error (.candle (.unexpectedRank 1 2 "to_vec1")) := by
  exact ⟨rfl, by with_unfolding_all rfl⟩

/-- C10, amended: the push itself is a non-blocking `try_send` — a closed
or full channel yields an immediate `channel_closed` / `buffer_full`
error with the channel unchanged, never a block — and the loop treats
such a failure as a break followed by an `Ok` return; but the decode
loop dies in sampling-rank validation before any push is reachable, so
a streaming call returns an error (see the counterexample). -/
theorem c10_amended (c : Channel) (m : ChatCompletionMessage) :
    (c.closed = true →
      send_stream_response (some c) m =
        (.error (.generic "errors.stream.channel_closed"), some c)) ∧
    (c.closed = false → c.capacity ≤ c.buffer.length →
      send_stream_response (some c) m =
        (.error (.generic "errors.stream.buffer_full"), some c)) := by
  constructor
  · intro h
    simp [send_stream_response, Channel.trySend, h]
  · intro h1 h2
    simp [send_stream_response, Channel.trySend, h1, h2]

/-- C10 witness: the try_send conjuncts at a closed channel and at a full
(zero-capacity) one. -/
theorem c10_amended_witness :
    send_stream_response (some ⟨8, [], true⟩) ⟨"assistant", "x"⟩ =
      (.error (.generic "errors.stream.channel_closed"), some ⟨8, [], true⟩) ∧
    send_stream_response (some ⟨0, [], false⟩) ⟨"assistant", "x"⟩ =
      (.error (.generic "errors.stream.buffer_full"), some ⟨0, [], false⟩) :=
  ⟨(c10_amended ⟨8, [], true⟩ ⟨"assistant", "x"⟩).1 rfl,
   (c10_amended ⟨0, [], false⟩ ⟨"assistant", "x"⟩).2 rfl (Nat.le_refl 0)⟩

end Coder
